import Mathlib

set_option maxRecDepth 8000

/-!
Verification development for `seg_pygame.py`, a Schelling-style segregation
agent-based simulation.  The simulation core (the `DataScientist` agent class,
the `GridWorld` environment and the `Model.run` loop) is embedded shallowly:
mutable objects become explicit state passing, Python exceptions become an
explicit `Except` error monad, Python `float` ratios/thresholds are modelled
by `ℚ`, and the Python stdlib `random` module (which is outside the
repository) is modelled by a concrete deterministic generator exposing the
interface properties the simulation relies on (determinism, shuffles are
permutations, choices return members of the list).
-/

/-- Exceptions the embedded Python code can raise: `IndexError` from list
indexing or `random.choice` on an empty list, `ValueError` from `list.remove`,
`AttributeError` from accessing `.language` on `None`. -/
inductive PyError
  | indexError
  | valueError
  | attributeError
deriving DecidableEq

/-- Grid coordinates `(row, col)`, as produced by
`itertools.product(range(n_rows), range(n_cols))`. -/
abbrev Coord := ℕ × ℕ

/-- Module constant `N_ROWS = 50` (seg_pygame.py line 67). -/
def N_ROWS : ℕ := 50

/-- Module constant `N_COLS = 50` (line 68). -/
def N_COLS : ℕ := 50

/-- Module constant `N_CELLS = N_ROWS * N_COLS` (line 69). -/
def N_CELLS : ℕ := N_ROWS * N_COLS

/-- Module constant `LANG_PYTHON = 'PYTHON'` (line 72). -/
def LANG_PYTHON : String := "PYTHON"

/-- Module constant `LANG_R = 'R'` (line 73). -/
def LANG_R : String := "R"

/-- Module constant `RATIO_R_TO_PYTHON = 0.5` (line 76); Python float
modelled as `ℚ` (written with `mkRat` so that the kernel can evaluate it). -/
def RATIO_R_TO_PYTHON : ℚ := mkRat 1 2

/-- Module constant `SIMILARITY_THRESHOLD = 0.3` (line 78). -/
def SIMILARITY_THRESHOLD : ℚ := mkRat 3 10

/-- Module constant `MAX_ITER = 500` (line 79). -/
def MAX_ITER : ℕ := 500

/-- Python `int()` applied to a rational: truncation toward zero.  Models the
`int(self.n_agents * RATIO_R_TO_PYTHON)` expression on line 243. -/
def intTrunc (q : ℚ) : ℤ := if q < 0 then ⌈q⌉ else ⌊q⌋

/-- The label cutoff `int(self.n_agents * RATIO_R_TO_PYTHON)` of line 243,
computed in `ℕ`: with the ratio fixed at `1/2` the Python expression equals
floor division by two exactly (the float product `n * 0.5` is exact for every
`n` in range, and `int` truncates).  The theorem `intTrunc_cutoff` below
proves this agrees with the literal translation
`intTrunc ((n : ℚ) * RATIO_R_TO_PYTHON)`. -/
def labelCutoff (n_agents : ℕ) : ℕ := n_agents / 2

/-- One step of the deterministic generator modelling the Python stdlib
`random` module state (a linear congruential stand-in; the simulation depends
only on determinism, membership of choices and permutation of shuffles). -/
def lcgNext (s : ℕ) : ℕ := (s * 1103515245 + 12345) % 2147483648

/-- Model of `random.choice(xs)`: `none` models the `IndexError` Python
raises on an empty list; otherwise an element of `xs` is returned together
with the advanced generator state. -/
def randChoice {α : Type} (s : ℕ) (xs : List α) : Option (α × ℕ) :=
  match xs with
  | [] => none
  | y :: ys => some ((y :: ys).getD (lcgNext s % (ys.length + 1)) y, lcgNext s)

/-- Recursive worker for the model of `random.shuffle`: repeatedly draws an
element of the remaining list and prepends it.  `fuel` starts at the length
of the list. -/
def randShuffleGo {α : Type} [DecidableEq α] : ℕ → ℕ → List α → List α × ℕ
  | 0, s, xs => (xs, s)
  | _ + 1, s, [] => ([], s)
  | fuel + 1, s, y :: ys =>
    let s2 := lcgNext s
    let z := (y :: ys).getD (s2 % (ys.length + 1)) y
    let rest := randShuffleGo fuel s2 ((y :: ys).erase z)
    (z :: rest.1, rest.2)

/-- Model of `random.seed(seed); random.shuffle(xs)` (lines 237-238): a
deterministic permutation of `xs` driven by the seed, returning the shuffled
list and the advanced generator state. -/
def randShuffle {α : Type} [DecidableEq α] (s : ℕ) (xs : List α) : List α × ℕ :=
  randShuffleGo xs.length s xs

/-- The `DataScientist` agent record (lines 127-200): identity, current grid
position, coding-language population label, and similarity threshold.  The
Python back-reference `self.env` is replaced by passing the `GridWorld`
explicitly into each query. -/
structure DataScientist where
  id : ℕ
  row : ℕ
  col : ℕ
  language : String
  threshold : ℚ
deriving DecidableEq

/-- The occupancy structure `self.grid`: a list of rows, each a list of cells
holding `None` or an agent (line 233). -/
abbrev Grid := List (List (Option DataScientist))

/-- The `GridWorld` state (lines 203-319): occupancy grid, the ordered agent
list, the list of empty cells, plus the state of the shared random source
(Python's module-global `random` state, threaded explicitly). -/
structure GridWorld where
  n_agents : ℕ
  grid : Grid
  agents : List DataScientist
  empty_cells : List Coord
  rng : ℕ
deriving DecidableEq

/-- Reading `self.grid[r][c]`: `none` models the `IndexError` on an
out-of-range index (Python negative indices do not arise: callers guard
`c[0] >= 0 and c[1] >= 0` before indexing). -/
def gridGet (g : Grid) (r c : ℕ) : Option (Option DataScientist) :=
  match g.get? r with
  | none => none
  | some row => row.get? c

/-- `gridGet` wrapped into the error monad. -/
def gridGetE (g : Grid) (r c : ℕ) : Except PyError (Option DataScientist) :=
  match gridGet g r c with
  | none => .error .indexError
  | some v => .ok v

/-- Writing `self.grid[r][c] = v`.  All writes performed by the source occur
at coordinates drawn from the grid's own coordinate list, hence in range; out
of range the write is a no-op here. -/
def gridSet (g : Grid) (r c : ℕ) (v : Option DataScientist) : Grid :=
  g.set r ((g.getD r []).set c v)

/-- The all-empty grid `[[None for i in range(n_cols)] for j in range(n_rows)]`
(line 233). -/
def emptyGrid (n_rows n_cols : ℕ) : Grid :=
  List.replicate n_rows (List.replicate n_cols none)

/-- Shape of a grid: `n_rows` rows of `n_cols` cells each. -/
def GridShape (g : Grid) (n_rows n_cols : ℕ) : Prop :=
  g.length = n_rows ∧ ∀ row ∈ g, row.length = n_cols

/-- The coordinate list `list(itertools.product(range(n_rows), range(n_cols)))`
(line 235), in row-major order. -/
def allCoords (n_rows n_cols : ℕ) : List Coord :=
  List.product (List.range n_rows) (List.range n_cols)

/-- The shuffled coordinate list produced during `GridWorld.__init__`. -/
def shuffledCoords (n_rows n_cols seed : ℕ) : List Coord :=
  (randShuffle seed (allCoords n_rows n_cols)).1

/-- Agent creation inside the `__init__` loop (lines 242-251): agent `i` is
placed at the `i`-th shuffled coordinate and receives `LANG_R` when
`i < int(n_agents * RATIO_R_TO_PYTHON)`, else `LANG_PYTHON`; the threshold is
the default `SIMILARITY_THRESHOLD`. -/
def mkAgent (i : ℕ) (pos : Coord) (n_agents : ℕ) : DataScientist :=
  { id := i
    row := pos.1
    col := pos.2
    language :=
      if i < labelCutoff n_agents then LANG_R
      else LANG_PYTHON
    threshold := SIMILARITY_THRESHOLD }

/-- The placement loop `self.grid[agent.row][agent.col] = agent` over the
agent list (line 252). -/
def placeAgents (g : Grid) (l : List DataScientist) : Grid :=
  l.foldl (fun acc a => gridSet acc a.row a.col (some a)) g

/-- The agent list built by the `__init__` loop: agent `i` is created at the
`i`-th shuffled coordinate. -/
def initAgents (n_rows n_cols n_empty seed : ℕ) : List DataScientist :=
  (List.range (N_CELLS - n_empty)).map
    (fun i => mkAgent i ((shuffledCoords n_rows n_cols seed).getD i (0, 0)) (N_CELLS - n_empty))

/-- `GridWorld.__init__(n_rows, n_cols, n_empty, random_seed)`
(lines 207-261).  Note the source computes `self.n_agents = N_CELLS - n_empty`
from the module constant `N_CELLS`, not from `n_rows * n_cols`.  When
`n_agents` exceeds the number of coordinates, `coords[i]` raises `IndexError`
during the agent-creation loop and no object is produced.  The embedding
covers `n_empty ≤ N_CELLS` (for larger `n_empty` Python's negative slice
semantics differ and no claim concerns that regime). -/
def gridWorldInit (n_rows n_cols n_empty seed : ℕ) : Except PyError GridWorld :=
  let nA := N_CELLS - n_empty
  let coords := shuffledCoords n_rows n_cols seed
  if nA ≤ coords.length then
    let ags := initAgents n_rows n_cols n_empty seed
    .ok { n_agents := nA
          grid := placeAgents (emptyGrid n_rows n_cols) ags
          agents := ags
          empty_cells := coords.drop nA
          rng := (randShuffle seed (allCoords n_rows n_cols)).2 }
  else .error .indexError

/-- The eight candidate neighbour coordinates of `get_neighbours`
(lines 282-289), in the source's fixed scan order: up-left, up, up-right,
left, right, down-left, down, down-right. -/
def neighbourCoords (row col : ℤ) : List (ℤ × ℤ) :=
  [(row - 1, col - 1), (row - 1, col), (row - 1, col + 1),
   (row, col - 1), (row, col + 1),
   (row + 1, col - 1), (row + 1, col), (row + 1, col + 1)]

/-- The feasibility test of the comprehension in `get_neighbours`
(lines 292-295): non-negative, within the *module constants* `N_ROWS`/`N_COLS`
(not the grid's own dimensions), and not in `self.empty_cells`. -/
def feasibleCoord (w : GridWorld) (c : ℤ × ℤ) : Bool :=
  decide (0 ≤ c.1) && decide (0 ≤ c.2) &&
  decide (c.1 < (N_ROWS : ℤ)) && decide (c.2 < (N_COLS : ℤ)) &&
  !decide ((c.1.toNat, c.2.toNat) ∈ w.empty_cells)

/-- Effectful map over a list, left to right, stopping at the first error:
the evaluation order of a Python list comprehension that can raise. -/
def mapEx {α β : Type} (f : α → Except PyError β) : List α → Except PyError (List β)
  | [] => .ok []
  | x :: xs =>
    match f x with
    | .error e => .error e
    | .ok y =>
      match mapEx f xs with
      | .error e => .error e
      | .ok ys => .ok (y :: ys)

/-- `GridWorld.get_neighbours(row, col)` (lines 263-297): the grid cell
values at the feasible candidate coordinates, in scan order.  A feasible
coordinate outside the actual extent of `self.grid` raises `IndexError`
(possible when the grid is smaller than the module constants). -/
def get_neighbours (w : GridWorld) (row col : ℤ) : Except PyError (List (Option DataScientist)) :=
  mapEx (fun c => gridGetE w.grid c.1.toNat c.2.toNat)
    ((neighbourCoords row col).filter (feasibleCoord w))

/-- Extraction of an agent from a grid cell value: a `None` cell raises
`AttributeError` at the `n.language` access inside the comprehension of
`is_unsatified_with_neighbours`. -/
def cellAgent (c : Option DataScientist) : Except PyError DataScientist :=
  match c with
  | some n => Except.ok n
  | none => Except.error PyError.attributeError

/-- The neighbouring agents of a position: the cell values returned by
`get_neighbours`, each forced to be an agent. -/
def neighbourAgents (w : GridWorld) (row col : ℤ) : Except PyError (List DataScientist) :=
  match get_neighbours w row col with
  | .error e => .error e
  | .ok cells => mapEx cellAgent cells

/-- The neighbour list as seen by `is_unsatified_with_neighbours`, queried at
the agent's own position. -/
def agentNeighbours (w : GridWorld) (a : DataScientist) : Except PyError (List DataScientist) :=
  neighbourAgents w (a.row : ℤ) (a.col : ℤ)

/-- `DataScientist.is_unsatified_with_neighbours` (lines 182-198): `False`
for an empty neighbourhood, else whether the similar fraction is strictly
below the threshold. -/
def is_unsatified_with_neighbours (w : GridWorld) (a : DataScientist) : Except PyError Bool :=
  match agentNeighbours w a with
  | .error e => .error e
  | .ok neighbours =>
    let n_similar := (neighbours.filter (fun n => n.language == a.language)).length
    if neighbours.length = 0 then .ok false
    else .ok (decide (mkRat n_similar neighbours.length < a.threshold))

/-- `GridWorld.get_random_empty_cell` (lines 315-319): `random.choice` over
`self.empty_cells`; `IndexError` when the list is empty. -/
def get_random_empty_cell (w : GridWorld) : Except PyError (Coord × ℕ) :=
  match randChoice w.rng w.empty_cells with
  | none => .error .indexError
  | some r => .ok r

/-- Python `list.remove(x)`: removes the first occurrence, `ValueError` when
absent. -/
def listRemove (xs : List Coord) (x : Coord) : Except PyError (List Coord) :=
  if x ∈ xs then .ok (xs.erase x) else .error .valueError

/-- `GridWorld.relocate(agent)` (lines 299-313): draw a random empty cell,
swap the agent there (the grid cell at the new location is written before the
old one is cleared), and swap the two coordinates between occupied and empty
bookkeeping.  Aliasing of the Python agent object is rendered by updating the
agent's record in the agent list by id. -/
def relocate (w : GridWorld) (agent : DataScientist) : Except PyError GridWorld := do
  let (new_loc, rng2) ← get_random_empty_cell w
  let old_loc : Coord := (agent.row, agent.col)
  let moved : DataScientist := { agent with row := new_loc.1, col := new_loc.2 }
  let grid2 := gridSet (gridSet w.grid new_loc.1 new_loc.2 (some moved)) old_loc.1 old_loc.2 none
  let removed ← listRemove w.empty_cells new_loc
  pure { w with
          grid := grid2
          agents := w.agents.map (fun b => if b.id = agent.id then moved else b)
          empty_cells := removed ++ [old_loc]
          rng := rng2 }

/-- The state produced by a successful `relocate(agent)` drawing `new_loc`:
the explicit value of the mutations on lines 307-313, used to characterize
`relocate` in the theorems below. -/
def relocResult (w : GridWorld) (agent : DataScientist) (new_loc : Coord) (rng2 : ℕ) : GridWorld :=
  { w with
      grid := gridSet (gridSet w.grid new_loc.1 new_loc.2
                (some { agent with row := new_loc.1, col := new_loc.2 }))
              agent.row agent.col none
      agents := w.agents.map (fun b =>
        if b.id = agent.id then { agent with row := new_loc.1, col := new_loc.2 } else b)
      empty_cells := w.empty_cells.erase new_loc ++ [(agent.row, agent.col)]
      rng := rng2 }

/-- Per-cell consistency used by the grid invariant: an occupied cell holds
an agent of the agent list recorded at exactly that position; an empty cell
is listed in `empty_cells`; in-bounds reads never fail. -/
def cellOk (w : GridWorld) (r c : ℕ) : Bool :=
  match gridGet w.grid r c with
  | some (some a) => decide (a ∈ w.agents) && decide (a.row = r) && decide (a.col = c)
  | some none => decide ((r, c) ∈ w.empty_cells)
  | none => false

/-- The grid/agent duality invariant of the spec (§3): shape of the grid,
no duplicated free cells, free cells in bounds and empty, every agent in
bounds and stored at its own cell, per-cell consistency, unique agent ids,
and `|free| + |agents| = rows * cols`. -/
def Invariant (n_rows n_cols : ℕ) (w : GridWorld) : Prop :=
  w.grid.length = n_rows ∧
  (∀ row ∈ w.grid, row.length = n_cols) ∧
  w.empty_cells.Nodup ∧
  (∀ p ∈ w.empty_cells, p.1 < n_rows ∧ p.2 < n_cols ∧ gridGet w.grid p.1 p.2 = some none) ∧
  (∀ a ∈ w.agents, a.row < n_rows ∧ a.col < n_cols ∧
      gridGet w.grid a.row a.col = some (some a)) ∧
  (∀ r, r < n_rows → ∀ c, c < n_cols → cellOk w r c = true) ∧
  (w.agents.map DataScientist.id).Nodup ∧
  w.empty_cells.length + w.agents.length = n_rows * n_cols

instance invariantDecidable (n_rows n_cols : ℕ) (w : GridWorld) :
    Decidable (Invariant n_rows n_cols w) := by
  unfold Invariant
  infer_instance

/-- The states of the simulation: a freshly constructed `GridWorld` (with
`n_empty` within the grid, as any valid configuration has), and any state
obtained from a reachable one by relocating one of its agents — exactly the
mutations `Model.run` performs. -/
inductive Reachable (n_rows n_cols : ℕ) : GridWorld → Prop
  | init : ∀ n_empty seed w, n_empty ≤ N_CELLS →
      gridWorldInit n_rows n_cols n_empty seed = Except.ok w → Reachable n_rows n_cols w
  | relocateStep : ∀ w a w2, Reachable n_rows n_cols w → a ∈ w.agents →
      relocate w a = Except.ok w2 → Reachable n_rows n_cols w2

/-- The scan phase of `Model.run` (lines 392-397): collect the unsatisfied
agents, in creation order, reading one consistent grid state. -/
def scanUnsat : GridWorld → List DataScientist → Except PyError (List DataScientist)
  | _, [] => .ok []
  | w, a :: rest =>
    match is_unsatified_with_neighbours w a with
    | .error e => .error e
    | .ok b =>
      match scanUnsat w rest with
      | .error e => .error e
      | .ok l => .ok (if b then a :: l else l)

/-- The full scan over `self.env.agents`. -/
def scanUnsatisfied (w : GridWorld) : Except PyError (List DataScientist) :=
  scanUnsat w w.agents

/-- The move phase of `Model.run` (lines 403-404): relocate the collected
agents one at a time, in order, each seeing the grid as mutated by the
earlier moves. -/
def movePhase : GridWorld → List DataScientist → Except PyError GridWorld
  | w, [] => .ok w
  | w, a :: rest =>
    match relocate w a with
    | .error e => .error e
    | .ok w2 => movePhase w2 rest

/-- The read-only per-iteration snapshot consumed by the rendering code:
iteration number, agent positions and labels, and the number of agents moved
this iteration. -/
structure Snapshot where
  iteration : ℕ
  positions : List (ℕ × ℕ × ℕ × String)
  moved : ℕ
deriving DecidableEq

/-- Snapshot of a grid state after an iteration. -/
def mkSnapshot (it : ℕ) (w : GridWorld) (moved : ℕ) : Snapshot :=
  { iteration := it
    positions := w.agents.map (fun a => (a.id, a.row, a.col, a.language))
    moved := moved }

/-- The `while not converged and iteration < self.max_iter` loop of
`Model.run` (lines 387-404), returning the final iteration count, the
convergence flag, the final grid and the per-iteration snapshots.  `fuel`
bounds the recursion and is instantiated with `max_iter`, which dominates
the number of loop entries. -/
def runGo (max_iter : ℕ) : ℕ → ℕ → GridWorld → Except PyError (ℕ × Bool × GridWorld × List Snapshot)
  | fuel, iteration, w =>
    if iteration < max_iter then
      match fuel with
      | 0 => .ok (iteration, false, w, [])
      | fuel2 + 1 =>
        match scanUnsatisfied w with
        | .error e => .error e
        | .ok to_move =>
          match movePhase w to_move with
          | .error e => .error e
          | .ok w2 =>
            if to_move.length = 0 then
              .ok (iteration + 1, true, w2, [mkSnapshot (iteration + 1) w2 0])
            else
              match runGo max_iter fuel2 (iteration + 1) w2 with
              | .error e => .error e
              | .ok (it, cv, wf, snaps) =>
                .ok (it, cv, wf, mkSnapshot (iteration + 1) w2 to_move.length :: snaps)
    else .ok (iteration, false, w, [])

/-- `Model.run` on an environment, starting from `converged, iteration =
False, 0`. -/
def modelRun (w : GridWorld) (max_iter : ℕ) : Except PyError (ℕ × Bool × GridWorld × List Snapshot) :=
  runGo max_iter max_iter 0 w

/-- The whole pipeline: construct the `GridWorld` from the configuration and
run the model — the simulation as `main()` wires it (with the pygame
rendering, which reads but never writes simulation state, erased). -/
def simRun (n_rows n_cols n_empty seed max_iter : ℕ) :
    Except PyError (ℕ × Bool × GridWorld × List Snapshot) :=
  match gridWorldInit n_rows n_cols n_empty seed with
  | .error e => .error e
  | .ok w => runGo max_iter max_iter 0 w

/-- Placeholder agent for total `getD` access in concrete statements. -/
def agJunk : DataScientist :=
  { id := 0, row := 0, col := 0, language := LANG_PYTHON, threshold := 0 }

/-- Placeholder grid world (note its `empty_cells` is empty) for total
`getD` access in concrete statements. -/
def gwJunk : GridWorld :=
  { n_agents := 0, grid := [], agents := [], empty_cells := [], rng := 0 }

/-- Modelled from the spec: Python's builtin `round` (round half to even),
which the spec's initialization sentence uses in
`round(n_agents * population_ratio)`; the source itself uses `int(...)`
truncation instead. -/
def pyRound (q : ℚ) : ℤ :=
  if q - ⌊q⌋ < 1/2 then ⌊q⌋
  else if (1:ℚ)/2 < q - ⌊q⌋ then ⌊q⌋ + 1
  else if ⌊q⌋ % 2 = 0 then ⌊q⌋ else ⌊q⌋ + 1

/-- Concrete agent (R coder at the top-left corner) for witness scenarios. -/
def agA : DataScientist :=
  { id := 0, row := 0, col := 0, language := LANG_R, threshold := SIMILARITY_THRESHOLD }

/-- Concrete agent (Python coder at `(0,1)`) for witness scenarios. -/
def agB : DataScientist :=
  { id := 1, row := 0, col := 1, language := LANG_PYTHON, threshold := SIMILARITY_THRESHOLD }

/-- Concrete agent (Python coder at `(1,0)`) for witness scenarios. -/
def agC : DataScientist :=
  { id := 2, row := 1, col := 0, language := LANG_PYTHON, threshold := SIMILARITY_THRESHOLD }

/-- Concrete agent (R coder at `(1,1)`) for witness scenarios. -/
def agD : DataScientist :=
  { id := 3, row := 1, col := 1, language := LANG_R, threshold := SIMILARITY_THRESHOLD }

/-- Concrete grid state with four agents packed into the top-left corner of a
full-size grid: `agA` has the three neighbours `agB`, `agC`, `agD`. -/
def wNbr : GridWorld :=
  { n_agents := 4
    grid := gridSet (gridSet (gridSet (gridSet (emptyGrid N_ROWS N_COLS)
              0 0 (some agA)) 0 1 (some agB)) 1 0 (some agC)) 1 1 (some agD)
    agents := [agA, agB, agC, agD]
    empty_cells := []
    rng := 0 }

/-- Concrete grid state with a single isolated agent in the corner and its
three adjacent cells listed as free: `agA` has no neighbours. -/
def wIso : GridWorld :=
  { n_agents := 1
    grid := gridSet (emptyGrid N_ROWS N_COLS) 0 0 (some agA)
    agents := [agA]
    empty_cells := [(0, 1), (1, 0), (1, 1)]
    rng := 0 }

/-! ### Basic list lemmas -/

theorem getD_mem_of_mem {α : Type} (l : List α) (i : ℕ) (d : α) (hd : d ∈ l) :
    l.getD i d ∈ l := by
  rcases Nat.lt_or_ge i l.length with hlt | hge
  · rw [List.getD_eq_get?, List.get?_eq_get hlt]
    exact List.get_mem _ _ hlt
  · rw [List.getD_eq_get?, List.get?_eq_none.2 hge]
    exact hd

/-! ### Basic lemmas about the random source model -/

theorem randChoice_eq_none_iff {α : Type} (s : ℕ) (xs : List α) :
    randChoice s xs = none ↔ xs = [] := by
  cases xs <;> simp [randChoice]

theorem randChoice_mem {α : Type} {s : ℕ} {xs : List α} {x : α} {s2 : ℕ}
    (h : randChoice s xs = some (x, s2)) : x ∈ xs := by
  cases xs with
  | nil => simp [randChoice] at h
  | cons y ys =>
    simp only [randChoice, Option.some.injEq, Prod.mk.injEq] at h
    rw [← h.1]
    exact getD_mem_of_mem _ _ _ (List.mem_cons_self y ys)

theorem randShuffleGo_perm {α : Type} [DecidableEq α] :
    ∀ (fuel s : ℕ) (xs : List α), (randShuffleGo fuel s xs).1.Perm xs := by
  intro fuel
  induction fuel with
  | zero => intro s xs; simp [randShuffleGo]
  | succ n ih =>
    intro s xs
    match xs with
    | [] => simp [randShuffleGo]
    | y :: ys =>
      simp only [randShuffleGo]
      have hz : (y :: ys).getD (lcgNext s % (ys.length + 1)) y ∈ y :: ys :=
        getD_mem_of_mem _ _ _ (List.mem_cons_self y ys)
      exact List.Perm.trans (List.Perm.cons _ (ih _ _)) (List.perm_cons_erase hz).symm

theorem randShuffle_perm {α : Type} [DecidableEq α] (s : ℕ) (xs : List α) :
    (randShuffle s xs).1.Perm xs :=
  randShuffleGo_perm xs.length s xs

theorem shuffledCoords_perm (n_rows n_cols seed : ℕ) :
    (shuffledCoords n_rows n_cols seed).Perm (allCoords n_rows n_cols) :=
  randShuffle_perm seed (allCoords n_rows n_cols)

/-! ### Lemmas about the coordinate list -/

theorem allCoords_eq_sprod (n_rows n_cols : ℕ) :
    allCoords n_rows n_cols = List.range n_rows ×ˢ List.range n_cols := rfl

theorem shuffledCoords_length (n_rows n_cols seed : ℕ) :
    (shuffledCoords n_rows n_cols seed).length = n_rows * n_cols := by
  rw [(shuffledCoords_perm n_rows n_cols seed).length_eq, allCoords_eq_sprod,
    List.length_product, List.length_range, List.length_range]

theorem mem_allCoords {n_rows n_cols : ℕ} {p : Coord} :
    p ∈ allCoords n_rows n_cols ↔ p.1 < n_rows ∧ p.2 < n_cols := by
  rcases p with ⟨r, c⟩
  rw [allCoords_eq_sprod]
  simp [List.mem_product, List.mem_range]

theorem nodup_allCoords (n_rows n_cols : ℕ) : (allCoords n_rows n_cols).Nodup := by
  rw [allCoords_eq_sprod]
  exact List.Nodup.product (List.nodup_range n_rows) (List.nodup_range n_cols)

theorem shuffledCoords_nodup (n_rows n_cols seed : ℕ) :
    (shuffledCoords n_rows n_cols seed).Nodup :=
  (shuffledCoords_perm n_rows n_cols seed).nodup_iff.2 (nodup_allCoords n_rows n_cols)

theorem mem_shuffledCoords {n_rows n_cols seed : ℕ} {p : Coord} :
    p ∈ shuffledCoords n_rows n_cols seed ↔ p.1 < n_rows ∧ p.2 < n_cols := by
  rw [(shuffledCoords_perm n_rows n_cols seed).mem_iff, mem_allCoords]

/-! ### Lemmas about grid reads and writes -/

theorem gridShape_emptyGrid (n_rows n_cols : ℕ) :
    GridShape (emptyGrid n_rows n_cols) n_rows n_cols := by
  constructor
  · simp [emptyGrid]
  · intro row hrow
    rw [List.eq_of_mem_replicate hrow]
    simp

theorem gridGet_emptyGrid {n_rows n_cols r c : ℕ} (hr : r < n_rows) (hc : c < n_cols) :
    gridGet (emptyGrid n_rows n_cols) r c = some none := by
  unfold gridGet emptyGrid
  rw [List.get?_eq_get (by simpa using hr)]
  simp only [List.get_replicate]
  rw [List.get?_eq_get (by simpa using hc)]
  simp

theorem gridSet_out_of_range {g : Grid} {n_rows n_cols : ℕ} (h : GridShape g n_rows n_cols)
    {r : ℕ} (hr : n_rows ≤ r) (c : ℕ) (v : Option DataScientist) : gridSet g r c v = g := by
  apply List.set_eq_of_length_le
  rw [h.1]
  exact hr

theorem gridShape_gridSet {g : Grid} {n_rows n_cols : ℕ} (h : GridShape g n_rows n_cols)
    (r c : ℕ) (v : Option DataScientist) : GridShape (gridSet g r c v) n_rows n_cols := by
  rcases Nat.lt_or_ge r n_rows with hlt | hge
  · obtain ⟨h1, h2⟩ := h
    constructor
    · rw [gridSet, List.length_set, h1]
    · intro row hrow
      rcases List.mem_or_eq_of_mem_set hrow with hmem | heq
      · exact h2 row hmem
      · subst heq
        rw [List.length_set]
        have hrl : r < g.length := by rw [h1]; exact hlt
        have hmem2 : g.getD r [] ∈ g := by
          rw [List.getD_eq_get?, List.get?_eq_get hrl]
          exact List.get_mem _ _ hrl
        exact h2 _ hmem2
  · rw [gridSet_out_of_range h hge]
    exact h

theorem gridGet_gridSet_ne {g : Grid} {r c r2 c2 : ℕ} (h : (r2, c2) ≠ (r, c))
    (v : Option DataScientist) : gridGet (gridSet g r c v) r2 c2 = gridGet g r2 c2 := by
  unfold gridGet gridSet
  rcases eq_or_ne r2 r with hr | hr
  · subst hr
    have hc : c2 ≠ c := fun hc => h (by rw [hc])
    rw [List.get?_set_eq]
    cases hg : g.get? r2 with
    | none => simp
    | some row =>
      have hrow : g.getD r2 [] = row := by rw [List.getD_eq_get?, hg]; rfl
      simp only [Option.map_eq_map, Option.map_some']
      rw [hrow, List.get?_set_ne _ _ (Ne.symm hc)]
  · rw [List.get?_set_ne _ _ (Ne.symm hr)]

theorem gridGet_gridSet_self {g : Grid} {n_rows n_cols : ℕ} (h : GridShape g n_rows n_cols)
    {r c : ℕ} (hr : r < n_rows) (hc : c < n_cols) (v : Option DataScientist) :
    gridGet (gridSet g r c v) r c = some v := by
  unfold gridGet gridSet
  have hrl : r < g.length := by rw [h.1]; exact hr
  have hrow : g.getD r [] = g.get ⟨r, hrl⟩ := by
    rw [List.getD_eq_get?, List.get?_eq_get hrl]
    rfl
  have hcl : c < (g.get ⟨r, hrl⟩).length := by
    rw [h.2 _ (List.get_mem _ _ hrl)]
    exact hc
  rw [List.get?_set_eq, List.get?_eq_get hrl]
  simp only [Option.map_eq_map, Option.map_some']
  rw [hrow, List.get?_set_eq, List.get?_eq_get hcl]
  rfl

theorem gridGet_some_of_shape {g : Grid} {n_rows n_cols : ℕ} (h : GridShape g n_rows n_cols)
    {r c : ℕ} (hr : r < n_rows) (hc : c < n_cols) : ∃ v, gridGet g r c = some v := by
  have hrl : r < g.length := by rw [h.1]; exact hr
  have hcl : c < (g.get ⟨r, hrl⟩).length := by
    rw [h.2 _ (List.get_mem _ _ hrl)]
    exact hc
  refine ⟨(g.get ⟨r, hrl⟩).get ⟨c, hcl⟩, ?_⟩
  unfold gridGet
  rw [List.get?_eq_get hrl]
  show (g.get ⟨r, hrl⟩).get? c = _
  rw [List.get?_eq_get hcl]

/-! ### Lemmas about agent placement -/

theorem placeAgents_nil (g : Grid) : placeAgents g [] = g := rfl

theorem placeAgents_cons (g : Grid) (a : DataScientist) (l : List DataScientist) :
    placeAgents g (a :: l) = placeAgents (gridSet g a.row a.col (some a)) l := rfl

theorem gridGet_placeAgents_of_notMem {l : List DataScientist} {r c : ℕ} :
    ∀ {g : Grid}, (∀ a ∈ l, (a.row, a.col) ≠ (r, c)) →
    gridGet (placeAgents g l) r c = gridGet g r c := by
  induction l with
  | nil => intro g _; rfl
  | cons a l ih =>
    intro g h
    rw [placeAgents_cons, ih (fun b hb => h b (List.mem_cons_of_mem a hb)),
      gridGet_gridSet_ne (Ne.symm (h a (List.mem_cons_self a l)))]

theorem gridGet_placeAgents_of_mem {l : List DataScientist} {n_rows n_cols : ℕ} :
    ∀ {g : Grid}, GridShape g n_rows n_cols →
    (l.map (fun a => ((a.row, a.col) : Coord))).Nodup →
    (∀ a ∈ l, a.row < n_rows ∧ a.col < n_cols) →
    ∀ {a : DataScientist}, a ∈ l →
    gridGet (placeAgents g l) a.row a.col = some (some a) := by
  induction l with
  | nil => intro g _ _ _ a ha; cases ha
  | cons b l ih =>
    intro g hsh hnd hbound a ha
    rw [placeAgents_cons]
    rcases List.mem_cons.1 ha with rfl | ha2
    · have hnotin : ∀ x ∈ l, ((x.row, x.col) : Coord) ≠ (a.row, a.col) := by
        intro x hx heq
        have hmem : ((a.row, a.col) : Coord) ∈ l.map (fun b => ((b.row, b.col) : Coord)) := by
          rw [← heq]
          exact List.mem_map_of_mem _ hx
        exact (List.nodup_cons.1 hnd).1 hmem
      rw [gridGet_placeAgents_of_notMem hnotin,
        gridGet_gridSet_self hsh (hbound a (List.mem_cons_self a l)).1
          (hbound a (List.mem_cons_self a l)).2]
    · exact ih (gridShape_gridSet hsh _ _ _) (List.nodup_cons.1 hnd).2
        (fun x hx => hbound x (List.mem_cons_of_mem b hx)) ha2

theorem placeAgents_shape {l : List DataScientist} {n_rows n_cols : ℕ} :
    ∀ {g : Grid}, GridShape g n_rows n_cols → GridShape (placeAgents g l) n_rows n_cols := by
  induction l with
  | nil => intro g h; exact h
  | cons a l ih => intro g h; rw [placeAgents_cons]; exact ih (gridShape_gridSet h _ _ _)

/-! ### Lemmas about per-cell consistency -/

theorem cellOk_of_agent {w : GridWorld} {r c : ℕ} {b : DataScientist}
    (hg : gridGet w.grid r c = some (some b)) (hb : b ∈ w.agents)
    (hr : b.row = r) (hc : b.col = c) : cellOk w r c = true := by
  unfold cellOk
  rw [hg]
  simp [hb, hr, hc]

theorem cellOk_of_empty {w : GridWorld} {r c : ℕ}
    (hg : gridGet w.grid r c = some none) (hm : (r, c) ∈ w.empty_cells) :
    cellOk w r c = true := by
  unfold cellOk
  rw [hg]
  simpa using hm

theorem cellOk_elim {w : GridWorld} {r c : ℕ} (h : cellOk w r c = true) :
    (∃ b, gridGet w.grid r c = some (some b) ∧ b ∈ w.agents ∧ b.row = r ∧ b.col = c) ∨
    (gridGet w.grid r c = some none ∧ (r, c) ∈ w.empty_cells) := by
  unfold cellOk at h
  cases hg : gridGet w.grid r c with
  | none => rw [hg] at h; exact absurd h (by simp)
  | some v =>
    cases v with
    | none =>
      rw [hg] at h
      exact Or.inr ⟨rfl, by simpa using h⟩
    | some b =>
      rw [hg] at h
      simp only [Bool.and_eq_true, decide_eq_true_eq] at h
      exact Or.inl ⟨b, rfl, h.1.1, h.1.2, h.2⟩

/-! ### Characterization of `GridWorld.__init__` -/

theorem gridWorldInit_ok {n_rows n_cols n_empty seed : ℕ}
    (h : N_CELLS - n_empty ≤ n_rows * n_cols) :
    gridWorldInit n_rows n_cols n_empty seed = Except.ok
      { n_agents := N_CELLS - n_empty
        grid := placeAgents (emptyGrid n_rows n_cols) (initAgents n_rows n_cols n_empty seed)
        agents := initAgents n_rows n_cols n_empty seed
        empty_cells := (shuffledCoords n_rows n_cols seed).drop (N_CELLS - n_empty)
        rng := (randShuffle seed (allCoords n_rows n_cols)).2 } := by
  unfold gridWorldInit
  rw [if_pos]
  rw [shuffledCoords_length]
  exact h

theorem gridWorldInit_error {n_rows n_cols n_empty seed : ℕ}
    (h : n_rows * n_cols < N_CELLS - n_empty) :
    gridWorldInit n_rows n_cols n_empty seed = Except.error PyError.indexError := by
  unfold gridWorldInit
  rw [if_neg]
  rw [shuffledCoords_length]
  exact Nat.not_le.2 h

theorem map_getD_range_eq_take {α : Type} (l : List α) (d : α) :
    ∀ {n : ℕ}, n ≤ l.length → (List.range n).map (fun i => l.getD i d) = l.take n := by
  intro n
  induction n with
  | zero => intro _; simp
  | succ m ih =>
    intro h
    have hm : m < l.length := Nat.lt_of_succ_le h
    rw [List.range_succ, List.map_append, ih (Nat.le_of_lt hm), List.take_succ]
    simp only [List.map_cons, List.map_nil]
    rw [List.getD_eq_get?, List.get?_eq_get hm]
    simp [List.getElem?_eq_getElem hm]

theorem initAgents_length (n_rows n_cols n_empty seed : ℕ) :
    (initAgents n_rows n_cols n_empty seed).length = N_CELLS - n_empty := by
  simp [initAgents]

theorem initAgents_map_pos {n_rows n_cols n_empty seed : ℕ}
    (h : N_CELLS - n_empty ≤ n_rows * n_cols) :
    (initAgents n_rows n_cols n_empty seed).map (fun a => ((a.row, a.col) : Coord))
      = (shuffledCoords n_rows n_cols seed).take (N_CELLS - n_empty) := by
  unfold initAgents
  rw [List.map_map]
  have : ((fun a => ((a.row, a.col) : Coord)) ∘
      (fun i => mkAgent i ((shuffledCoords n_rows n_cols seed).getD i (0, 0)) (N_CELLS - n_empty)))
      = fun i => (shuffledCoords n_rows n_cols seed).getD i ((0 : ℕ), (0 : ℕ)) := by
    funext i
    simp [mkAgent]
  rw [this]
  exact map_getD_range_eq_take _ _ (by rw [shuffledCoords_length]; exact h)

theorem initAgents_ids (n_rows n_cols n_empty seed : ℕ) :
    (initAgents n_rows n_cols n_empty seed).map DataScientist.id
      = List.range (N_CELLS - n_empty) := by
  unfold initAgents
  rw [List.map_map]
  have : (DataScientist.id ∘
      (fun i => mkAgent i ((shuffledCoords n_rows n_cols seed).getD i (0, 0)) (N_CELLS - n_empty)))
      = fun i => i := by
    funext i
    rfl
  rw [this, List.map_id']

theorem initAgents_getD {n_rows n_cols n_empty seed i : ℕ} (hi : i < N_CELLS - n_empty) :
    (initAgents n_rows n_cols n_empty seed).getD i agJunk
      = mkAgent i ((shuffledCoords n_rows n_cols seed).getD i (0, 0)) (N_CELLS - n_empty) := by
  unfold initAgents
  rw [List.getD_eq_get?, List.get?_map, List.get?_range hi]
  rfl

/-! ### The invariant holds after construction -/

theorem invariant_init {n_rows n_cols n_empty seed : ℕ} {w : GridWorld}
    (h : gridWorldInit n_rows n_cols n_empty seed = Except.ok w) :
    Invariant n_rows n_cols w := by
  have hlen := shuffledCoords_length n_rows n_cols seed
  have hnd := shuffledCoords_nodup n_rows n_cols seed
  unfold gridWorldInit at h
  by_cases hcond : N_CELLS - n_empty ≤ (shuffledCoords n_rows n_cols seed).length
  · rw [if_pos hcond] at h
    injection h with h
    subst h
    set nA := N_CELLS - n_empty with hnA
    set coords := shuffledCoords n_rows n_cols seed with hcoords
    set ags := initAgents n_rows n_cols n_empty seed with hags
    have hcondlen : nA ≤ n_rows * n_cols := by rw [← hlen]; exact hcond
    have hmp : ags.map (fun a => ((a.row, a.col) : Coord)) = coords.take nA :=
      initAgents_map_pos hcondlen
    have hshape : GridShape (placeAgents (emptyGrid n_rows n_cols) ags) n_rows n_cols :=
      placeAgents_shape (gridShape_emptyGrid n_rows n_cols)
    have hposnd : (ags.map (fun a => ((a.row, a.col) : Coord))).Nodup := by
      rw [hmp]
      exact (List.take_sublist nA coords).nodup hnd
    have hbound : ∀ a ∈ ags, a.row < n_rows ∧ a.col < n_cols := by
      intro a ha
      have : ((a.row, a.col) : Coord) ∈ coords.take nA := by
        rw [← hmp]
        exact List.mem_map_of_mem _ ha
      have := List.take_subset nA coords this
      exact mem_shuffledCoords.1 this
    have hdisj : (coords.take nA).Disjoint (coords.drop nA) :=
      List.disjoint_take_drop hnd (Nat.le_refl nA)
    have hdropGet : ∀ p ∈ coords.drop nA,
        gridGet (placeAgents (emptyGrid n_rows n_cols) ags) p.1 p.2 = some none := by
      intro p hp
      have hpc : p ∈ coords := List.drop_subset nA coords hp
      have hpb := mem_shuffledCoords.1 hpc
      rw [gridGet_placeAgents_of_notMem, gridGet_emptyGrid hpb.1 hpb.2]
      intro a ha heq
      have hmem : ((a.row, a.col) : Coord) ∈ coords.take nA := by
        rw [← hmp]
        exact List.mem_map_of_mem _ ha
      have : p ∈ coords.take nA := by
        rcases p with ⟨pr, pc⟩
        have heq2 : ((a.row, a.col) : Coord) = (pr, pc) := heq
        rw [← heq2]
        exact hmem
      exact hdisj this hp
    refine ⟨hshape.1, hshape.2, (List.drop_sublist nA coords).nodup hnd, ?_, ?_, ?_, ?_, ?_⟩
    · intro p hp
      have hpb := mem_shuffledCoords.1 (List.drop_subset nA coords hp)
      exact ⟨hpb.1, hpb.2, hdropGet p hp⟩
    · intro a ha
      obtain ⟨hr, hc⟩ := hbound a ha
      exact ⟨hr, hc, gridGet_placeAgents_of_mem (gridShape_emptyGrid n_rows n_cols)
        hposnd hbound ha⟩
    · intro r hr c hc
      by_cases hmem : ((r, c) : Coord) ∈ coords.take nA
      · have : ((r, c) : Coord) ∈ ags.map (fun a => ((a.row, a.col) : Coord)) := by
          rw [hmp]; exact hmem
        obtain ⟨a, ha, hpa⟩ := List.mem_map.1 this
        have har : a.row = r := congrArg Prod.fst hpa
        have hac : a.col = c := congrArg Prod.snd hpa
        apply cellOk_of_agent (b := a) _ ha har hac
        show gridGet (placeAgents (emptyGrid n_rows n_cols) ags) r c = some (some a)
        rw [← har, ← hac]
        exact gridGet_placeAgents_of_mem (gridShape_emptyGrid n_rows n_cols) hposnd hbound ha
      · have hmc : ((r, c) : Coord) ∈ coords := mem_shuffledCoords.2 ⟨hr, hc⟩
        have : ((r, c) : Coord) ∈ coords.take nA ++ coords.drop nA := by
          rw [List.take_append_drop]
          exact hmc
        have hdropmem : ((r, c) : Coord) ∈ coords.drop nA := by
          rcases List.mem_append.1 this with h1 | h2
          · exact absurd h1 hmem
          · exact h2
        exact cellOk_of_empty (hdropGet _ hdropmem) hdropmem
    · rw [show (initAgents n_rows n_cols n_empty seed).map DataScientist.id
          = List.range (N_CELLS - n_empty) from initAgents_ids n_rows n_cols n_empty seed]
      exact List.nodup_range _
    · rw [List.length_drop, initAgents_length, ← hlen]
      exact Nat.sub_add_cancel hcond
  · rw [if_neg hcond] at h
    cases h

/-! ### Consequences of the invariant -/

theorem inv_id_inj {n_rows n_cols : ℕ} {w : GridWorld} (hinv : Invariant n_rows n_cols w) :
    ∀ a ∈ w.agents, ∀ b ∈ w.agents, a.id = b.id → a = b := by
  have hnd := hinv.2.2.2.2.2.2.1
  exact fun a ha b hb hab => List.inj_on_of_nodup_map hnd ha hb hab

theorem inv_agent_cell {n_rows n_cols : ℕ} {w : GridWorld} (hinv : Invariant n_rows n_cols w)
    {a : DataScientist} (ha : a ∈ w.agents) :
    gridGet w.grid a.row a.col = some (some a) :=
  (hinv.2.2.2.2.1 a ha).2.2

theorem inv_pos_inj {n_rows n_cols : ℕ} {w : GridWorld} (hinv : Invariant n_rows n_cols w)
    {a b : DataScientist} (ha : a ∈ w.agents) (hb : b ∈ w.agents)
    (hr : a.row = b.row) (hc : a.col = b.col) : a = b := by
  have h1 := inv_agent_cell hinv ha
  have h2 := inv_agent_cell hinv hb
  rw [hr, hc] at h1
  rw [h1] at h2
  exact Option.some_injective _ (Option.some_injective _ h2)

theorem agent_pos_not_free {n_rows n_cols : ℕ} {w : GridWorld} (hinv : Invariant n_rows n_cols w)
    {a : DataScientist} (ha : a ∈ w.agents) : ((a.row, a.col) : Coord) ∉ w.empty_cells := by
  intro hmem
  have h1 := (hinv.2.2.2.1 _ hmem).2.2
  have h2 := inv_agent_cell hinv ha
  rw [h1] at h2
  cases h2

theorem free_pos_ne_agent_pos {n_rows n_cols : ℕ} {w : GridWorld}
    (hinv : Invariant n_rows n_cols w) {a : DataScientist} (ha : a ∈ w.agents)
    {loc : Coord} (hloc : loc ∈ w.empty_cells) : loc ≠ (a.row, a.col) := by
  intro heq
  exact agent_pos_not_free hinv ha (heq ▸ hloc)

/-! ### Characterization of `relocate` -/

theorem relocate_empty {w : GridWorld} (a : DataScientist) (h : w.empty_cells = []) :
    relocate w a = Except.error PyError.indexError := by
  unfold relocate get_random_empty_cell
  rw [h]
  rfl

theorem get_random_empty_cell_empty {w : GridWorld} (h : w.empty_cells = []) :
    get_random_empty_cell w = Except.error PyError.indexError := by
  unfold get_random_empty_cell
  rw [h]
  rfl

theorem relocate_eq {w : GridWorld} (a : DataScientist) {loc : Coord} {rng2 : ℕ}
    (hch : randChoice w.rng w.empty_cells = some (loc, rng2)) (hmem : loc ∈ w.empty_cells) :
    relocate w a = Except.ok (relocResult w a loc rng2) := by
  unfold relocate get_random_empty_cell
  rw [hch]
  show (do
    let removed ← listRemove w.empty_cells loc
    pure { w with
            grid := gridSet (gridSet w.grid loc.1 loc.2
                      (some { a with row := loc.1, col := loc.2 })) a.row a.col none
            agents := w.agents.map (fun b =>
              if b.id = a.id then { a with row := loc.1, col := loc.2 } else b)
            empty_cells := removed ++ [(a.row, a.col)]
            rng := rng2 } : Except PyError GridWorld) = _
  unfold listRemove
  rw [if_pos hmem]
  rfl

theorem relocate_cases (w : GridWorld) (a : DataScientist) :
    (w.empty_cells = [] ∧ relocate w a = Except.error PyError.indexError) ∨
    (∃ loc rng2, randChoice w.rng w.empty_cells = some (loc, rng2) ∧ loc ∈ w.empty_cells ∧
      relocate w a = Except.ok (relocResult w a loc rng2)) := by
  cases hch : randChoice w.rng w.empty_cells with
  | none =>
    have hnil := (randChoice_eq_none_iff _ _).1 hch
    exact Or.inl ⟨hnil, relocate_empty a hnil⟩
  | some pr =>
    obtain ⟨loc, rng2⟩ := pr
    have hmem := randChoice_mem hch
    exact Or.inr ⟨loc, rng2, rfl, hmem, relocate_eq a hch hmem⟩

theorem relocResult_grid (w : GridWorld) (a : DataScientist) (loc : Coord) (rng2 : ℕ) :
    (relocResult w a loc rng2).grid
      = gridSet (gridSet w.grid loc.1 loc.2 (some { a with row := loc.1, col := loc.2 }))
          a.row a.col none := rfl

theorem relocResult_agents (w : GridWorld) (a : DataScientist) (loc : Coord) (rng2 : ℕ) :
    (relocResult w a loc rng2).agents
      = w.agents.map (fun b =>
          if b.id = a.id then { a with row := loc.1, col := loc.2 } else b) := rfl

theorem relocResult_empty_cells (w : GridWorld) (a : DataScientist) (loc : Coord) (rng2 : ℕ) :
    (relocResult w a loc rng2).empty_cells
      = w.empty_cells.erase loc ++ [(a.row, a.col)] := rfl

theorem relocResult_old_mem_empty (w : GridWorld) (a : DataScientist) (loc : Coord) (rng2 : ℕ) :
    ((a.row, a.col) : Coord) ∈ (relocResult w a loc rng2).empty_cells := by
  rw [relocResult_empty_cells]
  exact List.mem_append_right _ (List.mem_singleton_self _)

theorem relocResult_moved_mem (w : GridWorld) {a : DataScientist} (ha : a ∈ w.agents)
    (loc : Coord) (rng2 : ℕ) :
    ({ a with row := loc.1, col := loc.2 } : DataScientist) ∈ (relocResult w a loc rng2).agents := by
  rw [relocResult_agents]
  refine List.mem_map.2 ⟨a, ha, ?_⟩
  simp

theorem relocResult_other_mem {w : GridWorld} {a : DataScientist}
    {b : DataScientist} (hb : b ∈ w.agents) (hbid : b.id ≠ a.id)
    (loc : Coord) (rng2 : ℕ) : b ∈ (relocResult w a loc rng2).agents := by
  rw [relocResult_agents]
  refine List.mem_map.2 ⟨b, hb, ?_⟩
  simp [hbid]

theorem relocResult_new_not_mem_empty {n_rows n_cols : ℕ} {w : GridWorld}
    (hinv : Invariant n_rows n_cols w) {a : DataScientist} (ha : a ∈ w.agents)
    {loc : Coord} (hloc : loc ∈ w.empty_cells) (rng2 : ℕ) :
    loc ∉ (relocResult w a loc rng2).empty_cells := by
  rw [relocResult_empty_cells]
  intro hmem
  rcases List.mem_append.1 hmem with h1 | h2
  · exact (((hinv.2.2.1).mem_erase_iff).1 h1).1 rfl
  · exact free_pos_ne_agent_pos hinv ha hloc (List.mem_singleton.1 h2)

theorem relocResult_empty_length {w : GridWorld}
    (a : DataScientist) {loc : Coord} (hloc : loc ∈ w.empty_cells) (rng2 : ℕ) :
    (relocResult w a loc rng2).empty_cells.length = w.empty_cells.length := by
  rw [relocResult_empty_cells, List.length_append, List.length_erase_of_mem hloc,
    List.length_singleton]
  have : 1 ≤ w.empty_cells.length := List.length_pos.2 (List.ne_nil_of_mem hloc)
  omega

theorem relocResult_agents_length (w : GridWorld) (a : DataScientist) (loc : Coord) (rng2 : ℕ) :
    (relocResult w a loc rng2).agents.length = w.agents.length := by
  rw [relocResult_agents, List.length_map]

/-! ### The invariant is preserved by `relocate` -/

theorem invariant_relocResult {n_rows n_cols : ℕ} {w : GridWorld}
    (hinv : Invariant n_rows n_cols w) {a : DataScientist} (ha : a ∈ w.agents)
    {loc : Coord} (hloc : loc ∈ w.empty_cells) (rng2 : ℕ) :
    Invariant n_rows n_cols (relocResult w a loc rng2) := by
  obtain ⟨lr, lc⟩ := loc
  have hg1 := hinv.1
  have hg2 := hinv.2.1
  have hend := hinv.2.2.1
  have hemp := hinv.2.2.2.1
  have hag := hinv.2.2.2.2.1
  have hcell := hinv.2.2.2.2.2.1
  have hids := hinv.2.2.2.2.2.2.1
  have hcount := hinv.2.2.2.2.2.2.2
  have hshape : GridShape w.grid n_rows n_cols := ⟨hg1, hg2⟩
  obtain ⟨hlr, hlc, hlcell⟩ := hemp _ hloc
  obtain ⟨har, hac, hacell⟩ := hag a ha
  have hnel : ((lr, lc) : Coord) ≠ (a.row, a.col) := free_pos_ne_agent_pos hinv ha hloc
  have holdnf : ((a.row, a.col) : Coord) ∉ w.empty_cells := agent_pos_not_free hinv ha
  set moved : DataScientist := { a with row := lr, col := lc } with hmoved
  set grid2 : Grid := gridSet (gridSet w.grid lr lc (some moved)) a.row a.col none with hgrid2
  have hshape1 : GridShape (gridSet w.grid lr lc (some moved)) n_rows n_cols :=
    gridShape_gridSet hshape lr lc (some moved)
  have hshape2 : GridShape grid2 n_rows n_cols := gridShape_gridSet hshape1 a.row a.col none
  have hGnew : gridGet grid2 lr lc = some (some moved) := by
    rw [hgrid2, gridGet_gridSet_ne hnel, gridGet_gridSet_self hshape hlr hlc]
  have hGold : gridGet grid2 a.row a.col = some none := by
    rw [hgrid2, gridGet_gridSet_self hshape1 har hac]
  have hGother : ∀ r c : ℕ, ((r, c) : Coord) ≠ (lr, lc) → ((r, c) : Coord) ≠ (a.row, a.col) →
      gridGet grid2 r c = gridGet w.grid r c := by
    intro r c h1 h2
    rw [hgrid2, gridGet_gridSet_ne h2, gridGet_gridSet_ne h1]
  have hpos_ne : ∀ b ∈ w.agents, b.id ≠ a.id →
      ((b.row, b.col) : Coord) ≠ (lr, lc) ∧ ((b.row, b.col) : Coord) ≠ (a.row, a.col) := by
    intro b hb hbid
    constructor
    · intro heq
      have hbr : b.row = lr := congrArg Prod.fst heq
      have hbc : b.col = lc := congrArg Prod.snd heq
      have := inv_agent_cell hinv hb
      rw [hbr, hbc, hlcell] at this
      cases this
    · intro heq
      have hbr : b.row = a.row := congrArg Prod.fst heq
      have hbc : b.col = a.col := congrArg Prod.snd heq
      exact hbid (congrArg DataScientist.id (inv_pos_inj hinv hb ha hbr hbc))
  have hrepl : ∀ b ∈ w.agents, b.id ≠ a.id →
      (if b.id = a.id then moved else b) = b := by
    intro b _ hbid
    rw [if_neg hbid]
  refine ⟨hshape2.1, hshape2.2, ?_, ?_, ?_, ?_, ?_, ?_⟩
  · rw [relocResult_empty_cells]
    rw [List.nodup_append]
    refine ⟨hend.erase _, List.nodup_singleton _, ?_⟩
    intro p hp hp2
    have hpm : p ∈ w.empty_cells := List.erase_subset _ _ hp
    rw [List.mem_singleton.1 hp2] at hpm
    exact holdnf hpm
  · rw [relocResult_empty_cells]
    intro p hp
    rcases List.mem_append.1 hp with h1 | h2
    · obtain ⟨hpne, hpm⟩ := (hend.mem_erase_iff).1 h1
      obtain ⟨hp1, hp2, hpcell⟩ := hemp p hpm
      refine ⟨hp1, hp2, ?_⟩
      show gridGet grid2 p.1 p.2 = some none
      have hpold : ((p.1, p.2) : Coord) ≠ (a.row, a.col) := by
        intro heq
        rw [Prod.mk.eta] at heq
        exact holdnf (heq ▸ hpm)
      have hploc : ((p.1, p.2) : Coord) ≠ (lr, lc) := by
        rw [Prod.mk.eta]
        exact hpne
      rw [hGother p.1 p.2 hploc hpold]
      exact hpcell
    · have hpe : p = (a.row, a.col) := List.mem_singleton.1 h2
      subst hpe
      exact ⟨har, hac, hGold⟩
  · rw [relocResult_agents]
    intro b2 hb2
    obtain ⟨b, hb, hbeq⟩ := List.mem_map.1 hb2
    by_cases hbid : b.id = a.id
    · have hba : b = a := inv_id_inj hinv b hb a ha hbid
      rw [if_pos hbid] at hbeq
      subst hbeq
      exact ⟨hlr, hlc, hGnew⟩
    · rw [if_neg hbid] at hbeq
      subst hbeq
      obtain ⟨hbr, hbc, hbcell⟩ := hag b hb
      obtain ⟨hne1, hne2⟩ := hpos_ne b hb hbid
      refine ⟨hbr, hbc, ?_⟩
      show gridGet grid2 b.row b.col = some (some b)
      rw [hGother b.row b.col hne1 hne2]
      exact hbcell
  · intro r hr c hc
    by_cases hisloc : ((r, c) : Coord) = (lr, lc)
    · have hrl : r = lr := congrArg Prod.fst hisloc
      have hcl : c = lc := congrArg Prod.snd hisloc
      rw [hrl, hcl]
      refine cellOk_of_agent (b := moved) ?_ (relocResult_moved_mem w ha (lr, lc) rng2) rfl rfl
      show gridGet grid2 lr lc = some (some moved)
      exact hGnew
    · by_cases hisold : ((r, c) : Coord) = (a.row, a.col)
      · have hrl : r = a.row := congrArg Prod.fst hisold
        have hcl : c = a.col := congrArg Prod.snd hisold
        rw [hrl, hcl]
        refine cellOk_of_empty ?_ (relocResult_old_mem_empty w a (lr, lc) rng2)
        show gridGet grid2 a.row a.col = some none
        exact hGold
      · have hgeq : gridGet grid2 r c = gridGet w.grid r c := hGother r c hisloc hisold
        rcases cellOk_elim (hcell r hr c hc) with ⟨b, hbcell, hb, hbr, hbc⟩ | ⟨hncell, hnm⟩
        · have hbid : b.id ≠ a.id := by
            intro hbid
            have hba : b = a := inv_id_inj hinv b hb a ha hbid
            rw [hba] at hbr hbc
            exact hisold (by rw [← hbr, ← hbc])
          refine cellOk_of_agent ?_ (relocResult_other_mem hb hbid (lr, lc) rng2) hbr hbc
          show gridGet grid2 r c = some (some b)
          rw [hgeq]
          exact hbcell
        · refine cellOk_of_empty ?_ ?_
          · show gridGet grid2 r c = some none
            rw [hgeq]
            exact hncell
          · rw [relocResult_empty_cells]
            refine List.mem_append_left _ ?_
            rw [hend.mem_erase_iff]
            exact ⟨hisloc, hnm⟩
  · rw [relocResult_agents, List.map_map]
    have : (DataScientist.id ∘ fun b => if b.id = a.id then moved else b)
        = DataScientist.id := by
      funext b
      by_cases hbid : b.id = a.id
      · simp only [Function.comp_apply, if_pos hbid]
        exact hbid.symm
      · simp only [Function.comp_apply, if_neg hbid]
    rw [this]
    exact hids
  · rw [relocResult_empty_length a hloc rng2, relocResult_agents_length]
    exact hcount

theorem invariant_relocate {n_rows n_cols : ℕ} {w : GridWorld} {a : DataScientist}
    {w2 : GridWorld} (hinv : Invariant n_rows n_cols w) (ha : a ∈ w.agents)
    (hrel : relocate w a = Except.ok w2) : Invariant n_rows n_cols w2 := by
  rcases relocate_cases w a with ⟨_, herr⟩ | ⟨loc, rng2, _, hmem, hok⟩
  · rw [herr] at hrel
    cases hrel
  · rw [hok] at hrel
    injection hrel with h
    rw [← h]
    exact invariant_relocResult hinv ha hmem rng2

/-- C1: for every reachable state of the simulation (immediately after
`GridWorld` construction and after every `relocate` call on one of its
agents), the grid invariant holds: `|free| + |agents| = rows * cols`, every
in-bounds position is either occupied by exactly one agent or listed in the
free set (never both, never neither — `cellOk`), and the grid's occupancy
entry at `(agent.row, agent.col)` is that agent, for every agent. -/
theorem c1_reachable_invariant (n_rows n_cols : ℕ) (w : GridWorld)
    (h : Reachable n_rows n_cols w) : Invariant n_rows n_cols w := by
  induction h with
  | init n_empty seed w _ hinit => exact invariant_init hinit
  | relocateStep w a w2 _ ha hrel ih => exact invariant_relocate ih ha hrel

/-- Witness for C1: the invariant holds for the concretely constructed
1 × 2 grid (one agent, one free cell), reached by `GridWorld.__init__`. -/
theorem c1_witness : Invariant 1 2 ((gridWorldInit 1 2 2499 0).toOption.getD gwJunk) :=
  c1_reachable_invariant 1 2 _
    (Reachable.init 2499 0 _ (by decide) (by rfl))

theorem relocResult_grid_new {n_rows n_cols : ℕ} {w : GridWorld}
    (hinv : Invariant n_rows n_cols w) {a : DataScientist} (ha : a ∈ w.agents)
    {loc : Coord} (hloc : loc ∈ w.empty_cells) (rng2 : ℕ) :
    gridGet (relocResult w a loc rng2).grid loc.1 loc.2
      = some (some { a with row := loc.1, col := loc.2 }) := by
  obtain ⟨lr, lc⟩ := loc
  obtain ⟨hlr, hlc, _⟩ := hinv.2.2.2.1 _ hloc
  have hnel : ((lr, lc) : Coord) ≠ (a.row, a.col) := free_pos_ne_agent_pos hinv ha hloc
  rw [relocResult_grid]
  show gridGet (gridSet (gridSet w.grid lr lc
      (some { a with row := lr, col := lc })) a.row a.col none) lr lc = _
  rw [gridGet_gridSet_ne hnel, gridGet_gridSet_self ⟨hinv.1, hinv.2.1⟩ hlr hlc]

/-- C2: for every agent of a grid state satisfying the invariant with a
non-empty free set, `relocate(agent)` succeeds; afterwards the agent's former
position is in the free set, the randomly drawn new position is absent from
the free set, the grid's occupancy at the new position is the moved agent
(which is in the agent list), and every other agent's record (id, position,
label, threshold) is unchanged; the number of agents is also unchanged. -/
theorem c2_relocate_contract (n_rows n_cols : ℕ) (w : GridWorld) (a : DataScientist)
    (hinv : Invariant n_rows n_cols w) (ha : a ∈ w.agents) (hne : w.empty_cells ≠ []) :
    ∃ w2 loc rng2,
      randChoice w.rng w.empty_cells = some (loc, rng2) ∧
      relocate w a = Except.ok w2 ∧
      ((a.row, a.col) : Coord) ∈ w2.empty_cells ∧
      loc ∉ w2.empty_cells ∧
      gridGet w2.grid loc.1 loc.2 = some (some { a with row := loc.1, col := loc.2 }) ∧
      ({ a with row := loc.1, col := loc.2 } : DataScientist) ∈ w2.agents ∧
      (∀ b ∈ w.agents, b.id ≠ a.id → b ∈ w2.agents) ∧
      w2.agents.length = w.agents.length := by
  rcases relocate_cases w a with ⟨hnil, _⟩ | ⟨loc, rng2, hch, hmem, hok⟩
  · exact absurd hnil hne
  · exact ⟨relocResult w a loc rng2, loc, rng2, hch, hok,
      relocResult_old_mem_empty w a loc rng2,
      relocResult_new_not_mem_empty hinv ha hmem rng2,
      relocResult_grid_new hinv ha hmem rng2,
      relocResult_moved_mem w ha loc rng2,
      fun b hb hbid => relocResult_other_mem hb hbid loc rng2,
      relocResult_agents_length w a loc rng2⟩

/-- Witness for C2: the relocate contract at the concretely constructed
1 × 2 grid with one agent and one free cell. -/
theorem c2_witness :
    ∃ w2 loc rng2,
      randChoice ((gridWorldInit 1 2 2499 0).toOption.getD gwJunk).rng
          ((gridWorldInit 1 2 2499 0).toOption.getD gwJunk).empty_cells = some (loc, rng2) ∧
      relocate ((gridWorldInit 1 2 2499 0).toOption.getD gwJunk)
          (((gridWorldInit 1 2 2499 0).toOption.getD gwJunk).agents.getD 0 agJunk)
        = Except.ok w2 ∧
      ((((gridWorldInit 1 2 2499 0).toOption.getD gwJunk).agents.getD 0 agJunk).row,
        (((gridWorldInit 1 2 2499 0).toOption.getD gwJunk).agents.getD 0 agJunk).col) ∈
          w2.empty_cells ∧
      loc ∉ w2.empty_cells ∧
      gridGet w2.grid loc.1 loc.2 = some (some
        { ((gridWorldInit 1 2 2499 0).toOption.getD gwJunk).agents.getD 0 agJunk with
            row := loc.1, col := loc.2 }) ∧
      ({ ((gridWorldInit 1 2 2499 0).toOption.getD gwJunk).agents.getD 0 agJunk with
            row := loc.1, col := loc.2 } : DataScientist) ∈ w2.agents ∧
      (∀ b ∈ ((gridWorldInit 1 2 2499 0).toOption.getD gwJunk).agents,
        b.id ≠ (((gridWorldInit 1 2 2499 0).toOption.getD gwJunk).agents.getD 0 agJunk).id →
          b ∈ w2.agents) ∧
      w2.agents.length = ((gridWorldInit 1 2 2499 0).toOption.getD gwJunk).agents.length :=
  c2_relocate_contract 1 2 _ _ (by decide) (by decide) (by decide)

/-- C10: for every agent of an invariant state with a non-empty free set,
relocation always moves the agent somewhere else: the destination is drawn
from the free set, the agent's own position is not free, so the new
`(row, col)` differs from the old one. -/
theorem c10_relocate_moves (n_rows n_cols : ℕ) (w : GridWorld) (a : DataScientist)
    (hinv : Invariant n_rows n_cols w) (ha : a ∈ w.agents) (hne : w.empty_cells ≠ []) :
    ∃ w2 loc rng2,
      randChoice w.rng w.empty_cells = some (loc, rng2) ∧
      relocate w a = Except.ok w2 ∧
      loc ∈ w.empty_cells ∧
      loc ≠ (a.row, a.col) ∧
      ({ a with row := loc.1, col := loc.2 } : DataScientist) ∈ w2.agents := by
  rcases relocate_cases w a with ⟨hnil, _⟩ | ⟨loc, rng2, hch, hmem, hok⟩
  · exact absurd hnil hne
  · exact ⟨relocResult w a loc rng2, loc, rng2, hch, hok, hmem,
      free_pos_ne_agent_pos hinv ha hmem, relocResult_moved_mem w ha loc rng2⟩

/-- Witness for C10: relocation moves the single agent of a concrete
2 × 1 grid away from its current cell. -/
theorem c10_witness :
    ∃ w2 loc rng2,
      randChoice ((gridWorldInit 2 1 2499 1).toOption.getD gwJunk).rng
          ((gridWorldInit 2 1 2499 1).toOption.getD gwJunk).empty_cells = some (loc, rng2) ∧
      relocate ((gridWorldInit 2 1 2499 1).toOption.getD gwJunk)
          (((gridWorldInit 2 1 2499 1).toOption.getD gwJunk).agents.getD 0 agJunk)
        = Except.ok w2 ∧
      loc ∈ ((gridWorldInit 2 1 2499 1).toOption.getD gwJunk).empty_cells ∧
      loc ≠ ((((gridWorldInit 2 1 2499 1).toOption.getD gwJunk).agents.getD 0 agJunk).row,
             (((gridWorldInit 2 1 2499 1).toOption.getD gwJunk).agents.getD 0 agJunk).col) ∧
      ({ ((gridWorldInit 2 1 2499 1).toOption.getD gwJunk).agents.getD 0 agJunk with
            row := loc.1, col := loc.2 } : DataScientist) ∈ w2.agents :=
  c10_relocate_moves 2 1 _ _ (by decide) (by decide) (by decide)

/-! ### Lemmas about `mapEx` and `Forall₂` -/

theorem mapEx_ok_forall {α β : Type} {f : α → Except PyError β} (P : α → β → Prop) :
    ∀ {l : List α}, (∀ x ∈ l, ∃ y, f x = Except.ok y ∧ P x y) →
    ∃ ys, mapEx f l = Except.ok ys ∧ List.Forall₂ P l ys := by
  intro l
  induction l with
  | nil => intro _; exact ⟨[], rfl, List.Forall₂.nil⟩
  | cons x xs ih =>
    intro h
    obtain ⟨y, hy, hP⟩ := h x (List.mem_cons_self x xs)
    obtain ⟨ys, hys, hfa⟩ := ih (fun z hz => h z (List.mem_cons_of_mem x hz))
    refine ⟨y :: ys, ?_, List.Forall₂.cons hP hfa⟩
    simp only [mapEx]
    rw [hy, hys]

theorem forall₂_compose {α β γ : Type} {P : α → β → Prop} {Q : β → γ → Prop}
    {R : α → γ → Prop} (h : ∀ a b c, P a b → Q b c → R a c) :
    ∀ {l1 : List α} {l2 : List β} {l3 : List γ},
      List.Forall₂ P l1 l2 → List.Forall₂ Q l2 l3 → List.Forall₂ R l1 l3 := by
  intro l1
  induction l1 with
  | nil =>
    intro l2 l3 h12 h23
    cases h12
    cases h23
    exact List.Forall₂.nil
  | cons a l1 ih =>
    intro l2 l3 h12 h23
    cases h12 with
    | cons hab h12 =>
      cases h23 with
      | cons hbc h23 => exact List.Forall₂.cons (h a _ _ hab hbc) (ih h12 h23)

theorem forall₂_eq_map {α β : Type} {f : β → α} :
    ∀ {l1 : List α} {l2 : List β}, List.Forall₂ (fun a b => f b = a) l1 l2 →
      l2.map f = l1 := by
  intro l1
  induction l1 with
  | nil => intro l2 h; cases h; rfl
  | cons a l1 ih =>
    intro l2 h
    cases h with
    | cons hab h => rw [List.map_cons, hab, ih h]

theorem forall₂_right_mem {α β : Type} {P : α → β → Prop} :
    ∀ {l1 : List α} {l2 : List β}, List.Forall₂ P l1 l2 →
      ∀ b ∈ l2, ∃ a ∈ l1, P a b := by
  intro l1
  induction l1 with
  | nil => intro l2 h b hb; cases h; cases hb
  | cons a l1 ih =>
    intro l2 h b hb
    cases h with
    | cons hab h =>
      rcases List.mem_cons.1 hb with rfl | hb2
      · exact ⟨a, List.mem_cons_self a l1, hab⟩
      · obtain ⟨a2, ha2, hP⟩ := ih h b hb2
        exact ⟨a2, List.mem_cons_of_mem a ha2, hP⟩

/-! ### `get_neighbours` under the invariant -/

theorem feasible_lookup {w : GridWorld} (hinv : Invariant N_ROWS N_COLS w)
    {p : ℤ × ℤ} (hp : feasibleCoord w p = true) :
    ∃ n : DataScientist, gridGetE w.grid p.1.toNat p.2.toNat = Except.ok (some n) ∧
      n ∈ w.agents ∧ (n.row : ℤ) = p.1 ∧ (n.col : ℤ) = p.2 := by
  unfold feasibleCoord at hp
  simp only [Bool.and_eq_true, decide_eq_true_eq, Bool.not_eq_true',
    decide_eq_false_iff_not] at hp
  obtain ⟨⟨⟨⟨h1, h2⟩, h3⟩, h4⟩, h5⟩ := hp
  have hr : p.1.toNat < N_ROWS := by omega
  have hc : p.2.toNat < N_COLS := by omega
  have hcell := hinv.2.2.2.2.2.1 p.1.toNat hr p.2.toNat hc
  rcases cellOk_elim hcell with ⟨n, hncell, hn, hnr, hnc⟩ | ⟨_, hm⟩
  · refine ⟨n, ?_, hn, by omega, by omega⟩
    unfold gridGetE
    rw [hncell]
  · exact absurd hm h5

theorem get_neighbours_ok {w : GridWorld} (hinv : Invariant N_ROWS N_COLS w) (row col : ℤ) :
    ∃ ns : List DataScientist,
      get_neighbours w row col = Except.ok (ns.map some) ∧
      neighbourAgents w row col = Except.ok ns ∧
      (∀ n ∈ ns, n ∈ w.agents) ∧
      ns.map (fun n => (((n.row : ℤ), (n.col : ℤ)) : ℤ × ℤ))
        = (neighbourCoords row col).filter (feasibleCoord w) := by
  obtain ⟨cells, hcells, hfa⟩ := mapEx_ok_forall
    (fun (p : ℤ × ℤ) (cell : Option DataScientist) =>
      ∃ n, cell = some n ∧ n ∈ w.agents ∧ (n.row : ℤ) = p.1 ∧ (n.col : ℤ) = p.2)
    (l := (neighbourCoords row col).filter (feasibleCoord w))
    (by
      intro p hp
      obtain ⟨n, hn1, hn2, hn3, hn4⟩ := feasible_lookup hinv (List.of_mem_filter hp)
      exact ⟨some n, hn1, n, rfl, hn2, hn3, hn4⟩)
  obtain ⟨ns, hns, hfa2⟩ := mapEx_ok_forall
    (f := cellAgent)
    (fun (cell : Option DataScientist) (n : DataScientist) => cell = some n)
    (l := cells)
    (by
      intro cell hcell
      obtain ⟨p, _, n, hn1, _⟩ := forall₂_right_mem hfa cell hcell
      exact ⟨n, by rw [hn1]; rfl, hn1⟩)
  have hcomp : List.Forall₂
      (fun (p : ℤ × ℤ) (n : DataScientist) =>
        n ∈ w.agents ∧ (n.row : ℤ) = p.1 ∧ (n.col : ℤ) = p.2)
      ((neighbourCoords row col).filter (feasibleCoord w)) ns := by
    refine forall₂_compose ?_ hfa hfa2
    intro p cell n hP hQ
    obtain ⟨n2, hn2eq, hn2m, hn2r, hn2c⟩ := hP
    rw [hQ] at hn2eq
    have : n2 = n := Option.some_injective _ hn2eq.symm
    subst this
    exact ⟨hn2m, hn2r, hn2c⟩
  have hcellsmap : cells = ns.map some := (forall₂_eq_map (f := some)
    (by
      refine List.Forall₂.imp ?_ hfa2
      intro cell n h
      exact h.symm)).symm
  have hgn : get_neighbours w row col = Except.ok cells := hcells
  refine ⟨ns, ?_, ?_, ?_, ?_⟩
  · rw [← hcellsmap]
    exact hgn
  · unfold neighbourAgents
    rw [hgn]
    exact hns
  · intro n hn
    obtain ⟨p, _, hP⟩ := forall₂_right_mem hcomp n hn
    exact hP.1
  · refine forall₂_eq_map ?_
    refine List.Forall₂.imp ?_ hcomp
    intro p n h
    rw [Prod.ext_iff]
    exact ⟨h.2.1, h.2.2⟩

/-- C3: for every agent whose neighbour query succeeds with list `ns`, the
unsatisfied test returns `false` when `ns` is empty (an isolated agent is
never unsatisfied, regardless of its threshold), and otherwise returns
exactly the truth value of
`(count of same-label neighbours) / (number of neighbours) < threshold`,
with the ratio taken exactly (Python's float division modelled in `ℚ`). -/
theorem c3_unsatisfied_iff (w : GridWorld) (a : DataScientist) (ns : List DataScientist)
    (h : agentNeighbours w a = Except.ok ns) :
    (ns = [] → is_unsatified_with_neighbours w a = Except.ok false) ∧
    (ns ≠ [] → is_unsatified_with_neighbours w a
        = Except.ok (decide
            ((((ns.filter (fun n => n.language == a.language)).length : ℚ) / (ns.length : ℚ))
              < a.threshold))) := by
  constructor
  · intro hnil
    unfold is_unsatified_with_neighbours
    rw [h, hnil]
    rfl
  · intro hne
    unfold is_unsatified_with_neighbours
    rw [h]
    show (if ns.length = 0 then (Except.ok false : Except PyError Bool)
      else Except.ok (decide (mkRat ((ns.filter (fun n => n.language == a.language)).length)
        ns.length < a.threshold))) = _
    rw [if_neg (fun h0 => hne (List.length_eq_zero.1 h0))]
    congr 1
    rw [decide_eq_decide, Rat.mkRat_eq_div]
    push_cast
    exact Iff.rfl

/-- Witness for C3: the isolated corner agent of `wIso` (empty neighbour
list) is not unsatisfied, and the corner agent of `wNbr`, with neighbours
`agB`, `agC`, `agD`, is unsatisfied exactly when its similar fraction `1/3`
is below its threshold `3/10`. -/
theorem c3_witness :
    ((([] : List DataScientist) = [] → is_unsatified_with_neighbours wIso agA = Except.ok false) ∧
     (([] : List DataScientist) ≠ [] → is_unsatified_with_neighbours wIso agA
        = Except.ok (decide
            (((([] : List DataScientist).filter (fun n => n.language == agA.language)).length : ℚ)
              / (([] : List DataScientist).length : ℚ) < agA.threshold)))) ∧
    (([agB, agC, agD] = ([] : List DataScientist) →
        is_unsatified_with_neighbours wNbr agA = Except.ok false) ∧
     ([agB, agC, agD] ≠ ([] : List DataScientist) →
        is_unsatified_with_neighbours wNbr agA
          = Except.ok (decide
              (((([agB, agC, agD].filter (fun n => n.language == agA.language)).length : ℚ)
                / (([agB, agC, agD] : List DataScientist).length : ℚ)) < agA.threshold)))) :=
  ⟨c3_unsatisfied_iff wIso agA [] (by rfl),
   c3_unsatisfied_iff wNbr agA [agB, agC, agD] (by rfl)⟩

/-- Counterexample for C7: a genuinely constructed 1 × 1 grid (one agent, no
free cell) on which the neighbours query at the grid's own position `(0,0)`
raises `IndexError` instead of silently excluding the out-of-bounds
neighbours: `get_neighbours` checks candidate coordinates against the module
constants `N_ROWS`/`N_COLS` (50), not the grid's own dimensions, and then
indexes past the end of the 1 × 1 occupancy list. -/
theorem c7_counterexample :
    (gridWorldInit 1 1 2499 0).toOption.isSome = true ∧
    get_neighbours ((gridWorldInit 1 1 2499 0).toOption.getD gwJunk) 0 0
      = Except.error PyError.indexError := by
  exact ⟨rfl, rfl⟩

/-- C7 (amended): for every grid state satisfying the invariant at the module
dimensions (`N_ROWS` × `N_COLS`, the only dimensions the program constructs)
and every queried position, the neighbours query never errors and returns
exactly the occupants of the candidate positions that pass the source's
feasibility test (within the module-constant bounds and not in the free
list), in the fixed scan order up-left, up, up-right, left, right, down-left,
down, down-right given by `neighbourCoords`; every returned agent is an agent
of the grid, stored at its own cell and not free. -/
theorem c7_neighbours_amended (w : GridWorld) (r c : ℕ)
    (hinv : Invariant N_ROWS N_COLS w) :
    ∃ ns : List DataScientist,
      get_neighbours w (r : ℤ) (c : ℤ) = Except.ok (ns.map some) ∧
      neighbourAgents w (r : ℤ) (c : ℤ) = Except.ok ns ∧
      (∀ n ∈ ns, n ∈ w.agents ∧ gridGet w.grid n.row n.col = some (some n) ∧
        ((n.row, n.col) : Coord) ∉ w.empty_cells) ∧
      ns.map (fun n => (((n.row : ℤ), (n.col : ℤ)) : ℤ × ℤ))
        = (neighbourCoords (r : ℤ) (c : ℤ)).filter (feasibleCoord w) := by
  obtain ⟨ns, h1, h2, h3, h4⟩ := get_neighbours_ok hinv (r : ℤ) (c : ℤ)
  exact ⟨ns, h1, h2,
    fun n hn => ⟨h3 n hn, inv_agent_cell hinv (h3 n hn), agent_pos_not_free hinv (h3 n hn)⟩,
    h4⟩

/-- Witness for C7 (amended): the neighbours query on a concretely
constructed 50 × 50 grid succeeds at position `(0, 0)`. -/
theorem c7_witness :
    ∃ ns : List DataScientist,
      get_neighbours ((gridWorldInit 50 50 2499 0).toOption.getD gwJunk) ((0 : ℕ) : ℤ) ((0 : ℕ) : ℤ)
        = Except.ok (ns.map some) ∧
      neighbourAgents ((gridWorldInit 50 50 2499 0).toOption.getD gwJunk) ((0 : ℕ) : ℤ) ((0 : ℕ) : ℤ)
        = Except.ok ns ∧
      (∀ n ∈ ns, n ∈ ((gridWorldInit 50 50 2499 0).toOption.getD gwJunk).agents ∧
        gridGet ((gridWorldInit 50 50 2499 0).toOption.getD gwJunk).grid n.row n.col
          = some (some n) ∧
        ((n.row, n.col) : Coord) ∉ ((gridWorldInit 50 50 2499 0).toOption.getD gwJunk).empty_cells) ∧
      ns.map (fun n => (((n.row : ℤ), (n.col : ℤ)) : ℤ × ℤ))
        = (neighbourCoords ((0 : ℕ) : ℤ) ((0 : ℕ) : ℤ)).filter
            (feasibleCoord ((gridWorldInit 50 50 2499 0).toOption.getD gwJunk)) := by
  have h : gridWorldInit 50 50 2499 0
      = Except.ok ((gridWorldInit 50 50 2499 0).toOption.getD gwJunk) := by
    rw [gridWorldInit_ok (by decide)]
    rfl
  exact c7_neighbours_amended _ 0 0 (invariant_init h)

/-- Counterexample for C4: on a concrete state with an empty free list,
`relocate` fails with the `IndexError` raised by `random.choice` on the empty
`empty_cells` list — there is no explicit `GridFull` guard (no such error
exists anywhere in the program), the failure is precisely the undefined
indexing the claim says is guarded against. -/
theorem c4_counterexample :
    gwJunk.empty_cells = [] ∧
    get_random_empty_cell gwJunk = Except.error PyError.indexError ∧
    relocate gwJunk agJunk = Except.error PyError.indexError :=
  ⟨rfl, rfl, rfl⟩

/-- C4 (amended): for every grid state whose free list is empty, `relocate`
fails with the `IndexError` propagated from `random.choice` inside
`get_random_empty_cell` (not a `GridFull` condition — the source has no such
guard), and no successor state is produced: the failure happens before any of
the mutations of `relocate` run, so the grid and agent state are unchanged by
the failed call. -/
theorem c4_relocate_empty_amended (w : GridWorld) (a : DataScientist)
    (h : w.empty_cells = []) :
    relocate w a = Except.error PyError.indexError ∧
    get_random_empty_cell w = Except.error PyError.indexError ∧
    ∀ w2, relocate w a ≠ Except.ok w2 := by
  refine ⟨relocate_empty a h, get_random_empty_cell_empty h, ?_⟩
  intro w2 hw2
  rw [relocate_empty a h] at hw2
  cases hw2

/-- Witness for C4 (amended): the concrete full grid `wNbr` (empty free
list). -/
theorem c4_witness :
    relocate wNbr agA = Except.error PyError.indexError ∧
    get_random_empty_cell wNbr = Except.error PyError.indexError ∧
    ∀ w2, relocate wNbr agA ≠ Except.ok w2 :=
  c4_relocate_empty_amended wNbr agA (by rfl)

/-- Counterexample for C5: construction performs no validation.  With
`empty_fraction = 0` (so `n_empty = 0`), `GridWorld.__init__` succeeds and
produces a simulation object whose free list is empty (instead of failing
with `InvalidConfiguration`); with zero grid dimensions it also succeeds. -/
theorem gridWorldInit_fields (n_rows n_cols n_empty seed : ℕ)
    (h : N_CELLS - n_empty ≤ n_rows * n_cols) :
    ∃ w, gridWorldInit n_rows n_cols n_empty seed = Except.ok w ∧
      w.n_agents = N_CELLS - n_empty ∧
      w.agents = initAgents n_rows n_cols n_empty seed ∧
      w.empty_cells = (shuffledCoords n_rows n_cols seed).drop (N_CELLS - n_empty) ∧
      w.grid = placeAgents (emptyGrid n_rows n_cols) (initAgents n_rows n_cols n_empty seed) :=
  ⟨_, gridWorldInit_ok h, rfl, rfl, rfl, rfl⟩

theorem c5_counterexample :
    (∃ w, gridWorldInit N_ROWS N_COLS 0 0 = Except.ok w ∧ w.empty_cells = []) ∧
    (∃ w, gridWorldInit 0 0 N_CELLS 0 = Except.ok w) := by
  constructor
  · obtain ⟨w, hok, _, _, hemp, _⟩ := gridWorldInit_fields N_ROWS N_COLS 0 0 (by decide)
    refine ⟨w, hok, ?_⟩
    rw [hemp]
    refine List.drop_eq_nil_of_le ?_
    rw [shuffledCoords_length]
    decide
  · obtain ⟨w, hok, _⟩ := gridWorldInit_fields 0 0 N_CELLS 0 (by decide)
    exact ⟨w, hok⟩

/-- C5 (amended): engine/grid construction validates nothing: it succeeds
exactly when `N_CELLS - n_empty ≤ n_rows * n_cols` (the bound needed for the
agent-placement indexing), regardless of the configuration constraints of
§6; in particular `empty_fraction = 0` and zero dimensions construct
successfully, and no `InvalidConfiguration` error exists in the program —
the only construction failure is the `IndexError` when the bound is
violated. -/
theorem c5_no_validation (n_rows n_cols n_empty seed : ℕ) :
    ((∃ w, gridWorldInit n_rows n_cols n_empty seed = Except.ok w)
      ↔ N_CELLS - n_empty ≤ n_rows * n_cols) ∧
    (¬ N_CELLS - n_empty ≤ n_rows * n_cols →
      gridWorldInit n_rows n_cols n_empty seed = Except.error PyError.indexError) := by
  constructor
  · constructor
    · rintro ⟨w, hw⟩
      by_contra hlt
      rw [gridWorldInit_error (Nat.not_le.1 hlt)] at hw
      cases hw
    · intro h
      exact ⟨_, gridWorldInit_ok h⟩
  · intro h
    exact gridWorldInit_error (Nat.not_le.1 h)

/-! ### The label cutoff -/

theorem ratio_mul_eq_div (n : ℕ) : (n : ℚ) * RATIO_R_TO_PYTHON = (n : ℚ) / 2 := by
  unfold RATIO_R_TO_PYTHON
  rw [Rat.mkRat_eq_div]
  push_cast
  ring

theorem intTrunc_cutoff (n : ℕ) :
    intTrunc ((n : ℚ) * RATIO_R_TO_PYTHON) = (labelCutoff n : ℤ) := by
  unfold intTrunc labelCutoff
  rw [ratio_mul_eq_div]
  rw [if_neg (not_lt.2 (by positivity : (0 : ℚ) ≤ (n : ℚ) / 2))]
  rw [show ((2 : ℚ)) = ((2 : ℕ) : ℚ) by norm_num]
  exact Rat.floor_natCast_div_natCast n 2

/-- Counterexample for C6, in two parts.  (a) The valid configuration of a
3 × 3 grid with 2 empty cells fails construction with `IndexError`, because
`__init__` computes `n_agents = N_CELLS - n_empty` from the module constant
`N_CELLS = 2500`, not from `rows * cols`.  (b) The labelled prefix is
`int(n_agents * ratio)` (truncation), not `round(...)`: with `n_empty = 1`
on the default 50 × 50 grid, `n_agents = 2499`, the spec's
`round(2499 * 0.5) = 1250` (half-to-even) but the code's cutoff is `1249`,
so agent `1249` receives the second label (`PYTHON`) although the claim
predicts the first (`R`). -/
theorem c6_counterexample :
    gridWorldInit 3 3 2 0 = Except.error PyError.indexError ∧
    pyRound ((2499 : ℚ) * RATIO_R_TO_PYTHON) = 1250 ∧
    intTrunc ((2499 : ℚ) * RATIO_R_TO_PYTHON) = 1249 ∧
    (∃ w, gridWorldInit 50 50 1 0 = Except.ok w ∧
      w.agents.length = 2499 ∧
      (w.agents.getD 1249 agJunk).language = LANG_PYTHON) := by
  refine ⟨rfl, ?_, ?_, ?_⟩
  · rw [show ((2499 : ℚ)) = (((2499 : ℕ) : ℚ)) by norm_num, ratio_mul_eq_div]
    unfold pyRound
    norm_num
  · rw [show ((2499 : ℚ)) = (((2499 : ℕ) : ℚ)) by norm_num, intTrunc_cutoff]
    rfl
  · obtain ⟨w, hok, _, hag, _, _⟩ := gridWorldInit_fields 50 50 1 0 (by decide)
    refine ⟨w, hok, ?_, ?_⟩
    · rw [hag, initAgents_length]
      decide
    · rw [hag, initAgents_getD (by decide)]
      show (mkAgent 1249 ((shuffledCoords 50 50 0).getD 1249 (0, 0)) (N_CELLS - 1)).language
        = LANG_PYTHON
      unfold mkAgent
      rw [if_neg]
      decide

/-- C6 (amended): for every configuration (with `n_empty` within the grid's
cell count) whose agent count `N_CELLS - n_empty` — computed from the module
constant `N_CELLS`, not from `rows * cols` — fits into the grid,
initialization builds all `rows * cols` positions, shuffles them with the
seeded generator (producing a permutation of the coordinate list), assigns
the first `N_CELLS - n_empty` shuffled positions to newly created agents, of
which the initial prefix of exactly `int(n_agents * RATIO_R_TO_PYTHON)`
agents (truncating division — equal to `n_agents / 2` — not `round`)
receives the label `LANG_R` and the remaining agents `LANG_PYTHON`, and
places the remaining shuffled positions into the free list. -/
theorem c6_init_amended (n_rows n_cols n_empty seed : ℕ)
    (h1 : n_empty ≤ N_CELLS) (h2 : N_CELLS - n_empty ≤ n_rows * n_cols) :
    ∃ w, gridWorldInit n_rows n_cols n_empty seed = Except.ok w ∧
      (shuffledCoords n_rows n_cols seed).Perm (allCoords n_rows n_cols) ∧
      (allCoords n_rows n_cols).length = n_rows * n_cols ∧
      w.agents.length = N_CELLS - n_empty ∧
      (∀ i, i < N_CELLS - n_empty →
        w.agents.getD i agJunk =
          { id := i
            row := ((shuffledCoords n_rows n_cols seed).getD i (0, 0)).1
            col := ((shuffledCoords n_rows n_cols seed).getD i (0, 0)).2
            language :=
              if (i : ℤ) < intTrunc (((N_CELLS - n_empty : ℕ) : ℚ) * RATIO_R_TO_PYTHON)
              then LANG_R else LANG_PYTHON
            threshold := SIMILARITY_THRESHOLD }) ∧
      intTrunc (((N_CELLS - n_empty : ℕ) : ℚ) * RATIO_R_TO_PYTHON)
        = ((N_CELLS - n_empty) / 2 : ℕ) ∧
      w.empty_cells = (shuffledCoords n_rows n_cols seed).drop (N_CELLS - n_empty) := by
  obtain ⟨w, hok, _, hag, hemp, _⟩ := gridWorldInit_fields n_rows n_cols n_empty seed h2
  refine ⟨w, hok, shuffledCoords_perm _ _ _, ?_, ?_, ?_, ?_, hemp⟩
  · rw [allCoords_eq_sprod, List.length_product, List.length_range, List.length_range]
  · rw [hag, initAgents_length]
  · intro i hi
    rw [hag, initAgents_getD hi]
    have hlang : (if i < labelCutoff (N_CELLS - n_empty) then LANG_R else LANG_PYTHON)
        = (if (i : ℤ) < intTrunc (((N_CELLS - n_empty : ℕ) : ℚ) * RATIO_R_TO_PYTHON)
           then LANG_R else LANG_PYTHON) := by
      rw [intTrunc_cutoff]
      by_cases hc : i < labelCutoff (N_CELLS - n_empty)
      · rw [if_pos hc, if_pos (by exact_mod_cast hc)]
      · rw [if_neg hc, if_neg (by exact_mod_cast hc)]
    unfold mkAgent
    rw [hlang]
  · rw [intTrunc_cutoff]
    unfold labelCutoff
    rfl

/-- Witness for C6 (amended): the initialization characterization at the
concrete configuration `(50, 50, n_empty = 2499, seed = 7)`. -/
theorem c6_witness :
    ∃ w, gridWorldInit 50 50 2499 7 = Except.ok w ∧
      (shuffledCoords 50 50 7).Perm (allCoords 50 50) ∧
      (allCoords 50 50).length = 50 * 50 ∧
      w.agents.length = N_CELLS - 2499 ∧
      (∀ i, i < N_CELLS - 2499 →
        w.agents.getD i agJunk =
          { id := i
            row := ((shuffledCoords 50 50 7).getD i (0, 0)).1
            col := ((shuffledCoords 50 50 7).getD i (0, 0)).2
            language :=
              if (i : ℤ) < intTrunc (((N_CELLS - 2499 : ℕ) : ℚ) * RATIO_R_TO_PYTHON)
              then LANG_R else LANG_PYTHON
            threshold := SIMILARITY_THRESHOLD }) ∧
      intTrunc (((N_CELLS - 2499 : ℕ) : ℚ) * RATIO_R_TO_PYTHON)
        = ((N_CELLS - 2499) / 2 : ℕ) ∧
      w.empty_cells = (shuffledCoords 50 50 7).drop (N_CELLS - 2499) :=
  c6_init_amended 50 50 2499 7 (by decide) (by decide)

/-! ### The run loop -/

theorem is_unsat_ok {w : GridWorld} (hinv : Invariant N_ROWS N_COLS w) (a : DataScientist) :
    ∃ b, is_unsatified_with_neighbours w a = Except.ok b := by
  obtain ⟨ns, _, h2, _, _⟩ := get_neighbours_ok hinv (a.row : ℤ) (a.col : ℤ)
  refine ⟨if ns.length = 0 then false
    else decide (mkRat ((ns.filter (fun n => n.language == a.language)).length)
      ns.length < a.threshold), ?_⟩
  unfold is_unsatified_with_neighbours agentNeighbours
  rw [h2]
  show (if ns.length = 0 then (Except.ok false : Except PyError Bool)
    else Except.ok (decide (mkRat ((ns.filter (fun n => n.language == a.language)).length)
      ns.length < a.threshold))) = _
  by_cases h0 : ns.length = 0
  · rw [if_pos h0, if_pos h0]
  · rw [if_neg h0, if_neg h0]

theorem scanUnsat_ok {w : GridWorld} (hinv : Invariant N_ROWS N_COLS w) :
    ∀ l : List DataScientist, ∃ tm, scanUnsat w l = Except.ok tm ∧ tm.Sublist l := by
  intro l
  induction l with
  | nil => exact ⟨[], rfl, List.Sublist.refl []⟩
  | cons a rest ih =>
    obtain ⟨b, hb⟩ := is_unsat_ok hinv a
    obtain ⟨tm, htm, hsub⟩ := ih
    refine ⟨if b then a :: tm else tm, ?_, ?_⟩
    · simp only [scanUnsat]
      rw [hb, htm]
    · cases b
      · simpa using hsub.cons a
      · simpa using hsub.cons₂ a

theorem scanUnsatisfied_ok {w : GridWorld} (hinv : Invariant N_ROWS N_COLS w) :
    ∃ tm, scanUnsatisfied w = Except.ok tm ∧ tm.Sublist w.agents :=
  scanUnsat_ok hinv w.agents

theorem movePhase_ok {n_rows n_cols : ℕ} :
    ∀ (l : List DataScientist) (w : GridWorld), Invariant n_rows n_cols w →
    (∀ a ∈ l, a ∈ w.agents) → (l.map DataScientist.id).Nodup →
    w.empty_cells ≠ [] →
    ∃ w2, movePhase w l = Except.ok w2 ∧ Invariant n_rows n_cols w2 ∧
      w2.empty_cells.length = w.empty_cells.length ∧
      w2.agents.length = w.agents.length := by
  intro l
  induction l with
  | nil =>
    intro w hinv _ _ _
    exact ⟨w, rfl, hinv, rfl, rfl⟩
  | cons a rest ih =>
    intro w hinv hmem hnd hne
    rcases relocate_cases w a with ⟨hnil, _⟩ | ⟨loc, rng2, _, hlocm, hok⟩
    · exact absurd hnil hne
    · have hinv2 := invariant_relocResult hinv (hmem a (List.mem_cons_self a rest)) hlocm rng2
      have hmem2 : ∀ b ∈ rest, b ∈ (relocResult w a loc rng2).agents := by
        intro b hb
        refine relocResult_other_mem (hmem b (List.mem_cons_of_mem a hb)) ?_ loc rng2
        intro hbid
        have : a.id ∈ rest.map DataScientist.id := by
          rw [← hbid]
          exact List.mem_map_of_mem _ hb
        exact (List.nodup_cons.1 (by simpa using hnd)).1 this
      have hlen := relocResult_empty_length a hlocm rng2
      have hne2 : (relocResult w a loc rng2).empty_cells ≠ [] := by
        intro hnil2
        apply hne
        have h0 : w.empty_cells.length = 0 := by
          rw [← hlen, hnil2]
          rfl
        exact List.length_eq_zero.1 h0
      obtain ⟨w2, hw2, hinv3, hlen2, halen⟩ := ih (relocResult w a loc rng2) hinv2 hmem2
        (by
          have h3 : (DataScientist.id a :: rest.map DataScientist.id).Nodup := by
            simpa using hnd
          exact (List.nodup_cons.1 h3).2) hne2
      refine ⟨w2, ?_, hinv3, ?_, ?_⟩
      · simp only [movePhase]
        rw [hok]
        exact hw2
      · rw [hlen2, hlen]
      · rw [halen, relocResult_agents_length]

theorem runGo_exit (max_iter fuel iteration : ℕ) (w : GridWorld)
    (h : ¬ iteration < max_iter) :
    runGo max_iter fuel iteration w = Except.ok (iteration, false, w, []) := by
  cases fuel with
  | zero =>
    simp only [runGo]
    rw [if_neg h]
  | succ fuel =>
    simp only [runGo]
    rw [if_neg h]

theorem runGo_step_conv (max_iter fuel iteration : ℕ) (w : GridWorld)
    (hit : iteration < max_iter) (htm : scanUnsatisfied w = Except.ok []) :
    runGo max_iter (fuel + 1) iteration w
      = Except.ok (iteration + 1, true, w, [mkSnapshot (iteration + 1) w 0]) := by
  simp only [runGo]
  rw [if_pos hit]
  show (match scanUnsatisfied w with
        | .error e => .error e
        | .ok to_move =>
          match movePhase w to_move with
          | .error e => .error e
          | .ok w2 =>
            if to_move.length = 0 then
              Except.ok (iteration + 1, true, w2, [mkSnapshot (iteration + 1) w2 0])
            else
              match runGo max_iter fuel (iteration + 1) w2 with
              | .error e => .error e
              | .ok (it, cv, wf, snaps) =>
                Except.ok (it, cv, wf, mkSnapshot (iteration + 1) w2 to_move.length :: snaps))
      = (Except.ok (iteration + 1, true, w, [mkSnapshot (iteration + 1) w 0])
          : Except PyError (ℕ × Bool × GridWorld × List Snapshot))
  rw [htm]
  rfl

theorem runGo_step_move (max_iter fuel iteration : ℕ) (w : GridWorld)
    (tm : List DataScientist) (w2 : GridWorld)
    (hit : iteration < max_iter) (htm : scanUnsatisfied w = Except.ok tm)
    (h0 : tm.length ≠ 0) (hw2 : movePhase w tm = Except.ok w2)
    {it : ℕ} {cv : Bool} {wf : GridWorld} {snaps : List Snapshot}
    (hrec : runGo max_iter fuel (iteration + 1) w2 = Except.ok (it, cv, wf, snaps)) :
    runGo max_iter (fuel + 1) iteration w
      = Except.ok (it, cv, wf, mkSnapshot (iteration + 1) w2 tm.length :: snaps) := by
  simp only [runGo]
  rw [if_pos hit]
  show (match scanUnsatisfied w with
        | .error e => .error e
        | .ok to_move =>
          match movePhase w to_move with
          | .error e => .error e
          | .ok w3 =>
            if to_move.length = 0 then
              Except.ok (iteration + 1, true, w3, [mkSnapshot (iteration + 1) w3 0])
            else
              match runGo max_iter fuel (iteration + 1) w3 with
              | .error e => .error e
              | .ok (it2, cv2, wf2, snaps2) =>
                Except.ok (it2, cv2, wf2, mkSnapshot (iteration + 1) w3 to_move.length :: snaps2))
      = (Except.ok (it, cv, wf, mkSnapshot (iteration + 1) w2 tm.length :: snaps)
          : Except PyError (ℕ × Bool × GridWorld × List Snapshot))
  rw [htm]
  show (match movePhase w tm with
        | .error e => .error e
        | .ok w3 =>
          if tm.length = 0 then
            Except.ok (iteration + 1, true, w3, [mkSnapshot (iteration + 1) w3 0])
          else
            match runGo max_iter fuel (iteration + 1) w3 with
            | .error e => .error e
            | .ok (it2, cv2, wf2, snaps2) =>
              Except.ok (it2, cv2, wf2, mkSnapshot (iteration + 1) w3 tm.length :: snaps2))
      = (Except.ok (it, cv, wf, mkSnapshot (iteration + 1) w2 tm.length :: snaps)
          : Except PyError (ℕ × Bool × GridWorld × List Snapshot))
  rw [hw2]
  show (if tm.length = 0 then
          Except.ok (iteration + 1, true, w2, [mkSnapshot (iteration + 1) w2 0])
        else
          match runGo max_iter fuel (iteration + 1) w2 with
          | .error e => .error e
          | .ok (it2, cv2, wf2, snaps2) =>
            Except.ok (it2, cv2, wf2, mkSnapshot (iteration + 1) w2 tm.length :: snaps2))
      = (Except.ok (it, cv, wf, mkSnapshot (iteration + 1) w2 tm.length :: snaps)
          : Except PyError (ℕ × Bool × GridWorld × List Snapshot))
  rw [if_neg h0, hrec]

theorem runGo_ok (max_iter : ℕ) :
    ∀ (fuel iteration : ℕ) (w : GridWorld), Invariant N_ROWS N_COLS w →
    w.empty_cells ≠ [] → iteration ≤ max_iter → max_iter - iteration ≤ fuel →
    ∃ it cv wf snaps, runGo max_iter fuel iteration w = Except.ok (it, cv, wf, snaps) ∧
      iteration ≤ it ∧ it ≤ max_iter ∧ (cv = true ∨ it = max_iter) ∧
      Invariant N_ROWS N_COLS wf ∧
      (cv = true → scanUnsatisfied wf = Except.ok []) := by
  intro fuel
  induction fuel with
  | zero =>
    intro iteration w hinv hne hle hfuel
    have heq : iteration = max_iter := by omega
    exact ⟨iteration, false, w, [], runGo_exit max_iter 0 iteration w (by omega),
      Nat.le_refl _, hle, Or.inr heq, hinv, by simp⟩
  | succ fuel ih =>
    intro iteration w hinv hne hle hfuel
    by_cases hit : iteration < max_iter
    · obtain ⟨tm, htm, hsub⟩ := scanUnsatisfied_ok hinv
      have hmem : ∀ a ∈ tm, a ∈ w.agents := fun a ha => hsub.subset ha
      have hndtm : (tm.map DataScientist.id).Nodup :=
        (hsub.map DataScientist.id).nodup hinv.2.2.2.2.2.2.1
      obtain ⟨w2, hw2, hinv2, hlen2, _⟩ := movePhase_ok tm w hinv hmem hndtm hne
      by_cases htm0 : tm.length = 0
      · have htm_nil : tm = [] := List.length_eq_zero.1 htm0
        subst htm_nil
        refine ⟨iteration + 1, true, w, [mkSnapshot (iteration + 1) w 0],
          runGo_step_conv max_iter fuel iteration w hit htm, by omega, by omega,
          Or.inl rfl, hinv, fun _ => htm⟩
      · have hne2 : w2.empty_cells ≠ [] := by
          intro hnil
          apply hne
          refine List.length_eq_zero.1 ?_
          rw [← hlen2, hnil]
          rfl
        obtain ⟨it, cv, wf, snaps, hrun, hit1, hit2, hcv, hinvf, hscan⟩ :=
          ih (iteration + 1) w2 hinv2 hne2 (by omega) (by omega)
        exact ⟨it, cv, wf, mkSnapshot (iteration + 1) w2 tm.length :: snaps,
          runGo_step_move max_iter fuel iteration w tm w2 hit htm htm0 hw2 hrun,
          by omega, hit2, hcv, hinvf, hscan⟩
    · exact ⟨iteration, false, w, [], runGo_exit max_iter (fuel + 1) iteration w hit,
        Nat.le_refl _, hle, Or.inr (by omega), hinv, by simp⟩

/-- C8: for every grid state satisfying the invariant (as every state of a
valid configuration does) with a non-empty free set, the run loop of
`Model.run` terminates normally: it returns with an iteration count that
never exceeds `max_iter`, and it stops either converged — in which case the
scan of the final state finds zero unsatisfied agents (convergence is exactly
`|to_move| = 0`) — or at `iteration = max_iter`, whichever comes first. -/
theorem c8_run_terminates (w : GridWorld) (max_iter : ℕ)
    (hinv : Invariant N_ROWS N_COLS w) (hne : w.empty_cells ≠ []) :
    ∃ it cv wf snaps, modelRun w max_iter = Except.ok (it, cv, wf, snaps) ∧
      it ≤ max_iter ∧ (cv = true ∨ it = max_iter) ∧
      (cv = true → scanUnsatisfied wf = Except.ok []) := by
  obtain ⟨it, cv, wf, snaps, hrun, _, hit2, hcv, _, hscan⟩ :=
    runGo_ok max_iter max_iter 0 w hinv hne (Nat.zero_le _) (by omega)
  exact ⟨it, cv, wf, snaps, hrun, hit2, hcv, hscan⟩

/-- Witness for C8: the run loop terminates on a concretely constructed
50 × 50 grid with one agent and 2499 free cells, capped at 3 iterations. -/
theorem c8_witness :
    ∃ it cv wf snaps,
      modelRun ((gridWorldInit 50 50 2499 0).toOption.getD gwJunk) 3
        = Except.ok (it, cv, wf, snaps) ∧
      it ≤ 3 ∧ (cv = true ∨ it = 3) ∧
      (cv = true → scanUnsatisfied wf = Except.ok []) := by
  have h : gridWorldInit 50 50 2499 0
      = Except.ok ((gridWorldInit 50 50 2499 0).toOption.getD gwJunk) := by
    rw [gridWorldInit_ok (by decide)]
    rfl
  refine c8_run_terminates _ 3 (invariant_init h) ?_
  obtain ⟨w, hok, _, _, hemp, _⟩ := gridWorldInit_fields 50 50 2499 0 (by decide)
  have hww : (gridWorldInit 50 50 2499 0).toOption.getD gwJunk = w := by
    rw [hok]
    rfl
  rw [hww, hemp]
  intro hnil
  have hlen := congrArg List.length hnil
  rw [List.length_drop, shuffledCoords_length] at hlen
  exact absurd hlen (by decide)

/-- C9: determinism of the simulation in the seed.  All randomness of the
embedded program is drawn from the single sequential generator state seeded
at construction and threaded through the shuffle and through every relocation
in move-phase order, so two independent runs with the same configuration and
the same seed produce the same constructed grid (identical initial placement
and labels) and the same full run outcome — iteration count, convergence
flag, final state and the entire per-iteration snapshot sequence (agent
positions and moved counts). -/
theorem c9_determinism (n_rows n_cols n_empty max_iter seed1 seed2 : ℕ)
    (h : seed1 = seed2) :
    gridWorldInit n_rows n_cols n_empty seed1 = gridWorldInit n_rows n_cols n_empty seed2 ∧
    simRun n_rows n_cols n_empty seed1 max_iter = simRun n_rows n_cols n_empty seed2 max_iter := by
  subst h
  exact ⟨rfl, rfl⟩

/-- Witness for C9: two runs of the concrete configuration
`(1, 2, n_empty = 2499, seed = 5, max_iter = 4)` agree. -/
theorem c9_witness :
    gridWorldInit 1 2 2499 5 = gridWorldInit 1 2 2499 5 ∧
    simRun 1 2 2499 5 4 = simRun 1 2 2499 5 4 :=
  c9_determinism 1 2 2499 4 5 5 rfl

/-- Witness for C5 (amended): the no-validation characterization at the
program's own configuration `n_empty = 750` (30% of the cells). -/
theorem c5_witness :
    ((∃ w, gridWorldInit 50 50 750 3 = Except.ok w) ↔ N_CELLS - 750 ≤ 50 * 50) ∧
    (¬ N_CELLS - 750 ≤ 50 * 50 →
      gridWorldInit 50 50 750 3 = Except.error PyError.indexError) :=
  c5_no_validation 50 50 750 3
